import Mathlib

/-!
The command `livecaption`: microphone audio streamed to a speech recognition
service, the transcripts printed as they arrive.

A shallow embedding of `cmd/livecaption/main.go`.  The program is three
goroutines (main, the signal goroutine of lines 31-38, the capture goroutine
of lines 82-122) sharing two channels and one recognition stream.  It is
embedded as an interleaving transition system: a `State` holds one program
counter per goroutine, the two channels, the capture buffers and the records
of what the process did to the outside world; an `Event` is one goroutine
taking its next step together with the answer of the outside world to the
call made in that step; `step` is the transition function and `run` folds it
over a schedule.
-/

namespace LiveCaption

/-! ## Data model -/

/-- Go `error` values as far as `main` tells them apart: the sentinel
`io.EOF` and every other error. -/
inductive Err where
  | eof
  | other (code : Nat)
  deriving DecidableEq, Repr

/-- The two signals named on line 30.  Only `os.Interrupt` can be caught and
relayed to `sig`; `os.Kill` ends the process at once whatever was registered. -/
inductive Signal where
  | interrupt
  | kill
  deriving DecidableEq, Repr

/-- The `speechpb.RecognitionConfig_AudioEncoding` values. -/
inductive AudioEncoding where
  | ENCODING_UNSPECIFIED
  | LINEAR16
  | FLAC
  | MULAW
  deriving DecidableEq, Repr

/-- The `speechpb.RecognitionConfig` fields set by `main`. -/
structure RecognitionConfig where
  Encoding : AudioEncoding
  SampleRateHertz : Nat
  LanguageCode : String
  deriving DecidableEq, Repr

/-- The `speechpb.StreamingRecognizeRequest` with its two `StreamingRequest`
variants; bytes are naturals below 256. -/
inductive StreamingRecognizeRequest where
  | StreamingConfig (config : RecognitionConfig)
  | AudioContent (content : List Nat)
  deriving DecidableEq, Repr

/-- The service-reported `resp.Error`, a status the program only logs. -/
structure Status where
  code : Nat
  deriving DecidableEq, Repr

/-- One entry of `resp.Results`; the program only prints it. -/
structure StreamingRecognitionResult where
  tag : Nat
  deriving DecidableEq, Repr

/-- The `speechpb.StreamingRecognizeResponse` fields read by `main`. -/
structure StreamingRecognizeResponse where
  Error : Option Status
  Results : List StreamingRecognitionResult
  deriving DecidableEq, Repr

/-- The configuration of lines 70-75. -/
def initialConfig : RecognitionConfig :=
  { Encoding := AudioEncoding.LINEAR16, SampleRateHertz := 16000, LanguageCode := "en-US" }

/-- The request of lines 67-78. -/
def configRequest : StreamingRecognizeRequest :=
  StreamingRecognizeRequest.StreamingConfig initialConfig

/-- The length of `bufIn` (line 83). -/
def bufInLen : Nat := 8196

/-! ## Little-endian serialisation (`binary.Write` with `binary.LittleEndian`) -/

/-- The conversion `uint16(x)` of an `int16` value. -/
def toUint16 (x : Int) : Nat := (x % 65536).toNat

/-- The bytes `LittleEndian.PutUint16` stores: `byte(v)` then `byte(v >> 8)`. -/
def putUint16 (v : Nat) : List Nat := [v % 256, v / 256 % 256]

/-- The bytes `binary.Write(w, binary.LittleEndian, data)` produces for a
`[]int16`. -/
def encodeInt16s (data : List Int) : List Nat :=
  data.flatMap (fun x => putUint16 (toUint16 x))

/-- The call `binary.Write(&bufWriter, binary.LittleEndian, bufIn)`: the bytes
are appended to what the buffer holds. -/
def binaryWrite (bufWriter : List Nat) (bufIn : List Int) : List Nat :=
  bufWriter ++ encodeInt16s bufIn

/-- The value `LittleEndian.Uint16` reads from two bytes. -/
def uint16LE (lo hi : Nat) : Nat := lo + 256 * hi

/-- The conversion `int16(u)` of a `uint16` value. -/
def toInt16 (u : Nat) : Int := if u < 32768 then (u : Int) else (u : Int) - 65536

/-- Reading a byte sequence back as little-endian `int16` samples. -/
def decodeInt16s : List Nat → List Int
  | lo :: hi :: rest => toInt16 (uint16LE lo hi) :: decodeInt16s rest
  | _ => []

/-- The range of an `int16`. -/
def isInt16 (x : Int) : Bool := decide (-32768 ≤ x) && decide (x ≤ 32767)

/-! ## Channels -/

/-- A Go channel: its capacity, its buffer, and the values of the senders
parked on it. -/
structure Chan (α : Type) where
  cap : Nat
  buf : List α
  sendq : List α
  deriving DecidableEq, Repr

/-- The channel `make(chan α, cap)`. -/
def Chan.make (α : Type) (cap : Nat) : Chan α := { cap := cap, buf := [], sendq := [] }

/-- A send that never blocks (`select` with a send case and `default`, the
way `signal.Notify` relays): the value is buffered when there is room and
dropped otherwise. -/
def Chan.trySend {α : Type} (c : Chan α) (v : α) : Chan α :=
  if c.buf.length < c.cap then { c with buf := c.buf ++ [v] } else c

/-- The statement `c <- v`: with room in the buffer the value is buffered and
the send is complete (`true`); otherwise the sender parks on the channel
(`false`) until a receiver takes its value. -/
def Chan.send {α : Type} (c : Chan α) (v : α) : Chan α × Bool :=
  if c.buf.length < c.cap then ({ c with buf := c.buf ++ [v] }, true)
  else ({ c with sendq := c.sendq ++ [v] }, false)

/-- A receive `<-c` that is ready: the received value, the channel afterwards,
and whether a parked sender was released.  `none` when nothing is buffered and
no sender is parked. -/
def Chan.recv {α : Type} (c : Chan α) : Option (α × Chan α × Bool) :=
  match c.buf, c.sendq with
  | v :: rest, [] => some (v, { c with buf := rest }, false)
  | v :: rest, w :: q => some (v, { c with buf := rest ++ [w], sendq := q }, true)
  | [], w :: q => some (w, { c with sendq := q }, true)
  | [], [] => none

/-! ## Program state -/

/-- Where the main goroutine stands (the statement it executes next). -/
inductive MainPc where
  | goCoord            -- line 31
  | dial               -- lines 41-49
  | newClient          -- line 58
  | streamingRecognize -- line 62
  | sendConfig         -- line 67
  | goCapture          -- line 82
  | recv               -- line 125
  | ret                -- line 139
  deriving DecidableEq, Repr

/-- Where the signal goroutine (lines 31-38) stands. -/
inductive CoordPc where
  | notStarted
  | recvSig   -- line 33
  | println (s : Signal) -- line 34, holding the received signal
  | send      -- line 35
  | parked    -- line 35, blocked in the send
  | exit      -- line 36
  deriving DecidableEq, Repr

/-- Where the capture goroutine (lines 82-122) stands. -/
inductive CapPc where
  | notStarted
  | openStream -- lines 83-85
  | start      -- line 92
  | read       -- lines 97-98
  | write      -- line 102
  | send       -- line 104
  | select     -- line 111
  | dot        -- line 120
  | turningOff -- line 113
  | stop       -- line 114
  | ret        -- line 117
  | done
  deriving DecidableEq, Repr

/-- A line on standard output. -/
inductive Out where
  | receivedSignal (s : Signal)   -- line 34
  | failedDefaultStream (e : Err) -- line 87
  | failedInputStream (e : Err)   -- line 93
  | failedRead (e : Err)          -- line 99
  | turningOffMic                 -- line 113
  | failedStop                    -- line 115
  | dot                           -- line 120
  | result (r : StreamingRecognitionResult) -- line 136
  deriving DecidableEq, Repr

/-- A line written by the `log` package. -/
inductive Log where
  | fatal (e : Err)                 -- lines 54, 60, 64, 79
  | couldNotSendAudio (e : Err)     -- line 109
  | cannotStreamResults (e : Err)   -- line 130
  | couldNotRecognize (st : Status) -- line 133
  deriving DecidableEq, Repr

/-- A call on the audio device. -/
inductive DevCall where
  | openDefaultStream (numIn numOut rate frames : Nat)
  | start
  | read
  | stop
  | close
  deriving DecidableEq, Repr

/-- One call of `stream.Send`: the request and the error it returned. -/
structure SendCall where
  req : StreamingRecognizeRequest
  err : Option Err
  deriving DecidableEq, Repr

/-- The state of the process. -/
structure State where
  status : Option Nat
  main : MainPc
  coord : CoordPc
  capture : CapPc
  sig : Chan Signal
  micStopCh : Chan Bool
  bufIn : List Int
  bufWriter : List Nat
  sent : List SendCall
  out : List Out
  log : List Log
  dev : List DevCall
  deriving DecidableEq, Repr

/-- The state at line 31: both channels made (lines 28-29) and the signals
registered (line 30). -/
def State.init : State :=
  { status := none, main := MainPc.goCoord, coord := CoordPc.notStarted,
    capture := CapPc.notStarted,
    sig := Chan.make Signal 1, micStopCh := Chan.make Bool 0,
    bufIn := [], bufWriter := [], sent := [], out := [], log := [], dev := [] }

/-- One step of one goroutine, with what the outside world answers. -/
inductive Event where
  | signal (x : Signal)                    -- the process is sent a signal
  | mGoCoord                               -- line 31
  | mDial (err : Option Err)               -- line 49
  | mNewClient (err : Option Err)          -- line 58
  | mStreamingRecognize (err : Option Err) -- line 62
  | mSendConfig (err : Option Err)         -- line 67
  | mGoCapture                             -- line 82
  | mRecv (r : Except Err StreamingRecognizeResponse) -- line 125
  | mReturn                                -- line 139
  | sRecvSig                               -- line 33
  | sPrintln                               -- line 34
  | sSend                                  -- line 35
  | sExit                                  -- line 36
  | kOpen (err : Option Err)               -- lines 83-85
  | kStart (err : Option Err)              -- line 92
  | kRead (r : Except Err (List Int))      -- lines 97-98
  | kWrite                                 -- line 102
  | kSend (err : Option Err)               -- line 104
  | kSelect (stop : Bool)                  -- line 111
  | kDot                                   -- line 120
  | kTurningOff                            -- line 113
  | kStop (err : Option Err)               -- line 114
  | kReturn                                -- line 117

/-! ## Transitions -/

/-- The status reported for a process ended by `SIGKILL` (128 + 9).  The signal
cannot be caught: nothing is relayed to `sig`, nothing is printed, no deferred
call runs. -/
def killedStatus : Nat := 137

/-- The end of `log.Fatal` and `log.Fatalf`: the line is written, then
`os.Exit(1)`. -/
def State.fatal (s : State) (l : Log) : State :=
  { s with log := s.log ++ [l], status := some 1 }

/-- The end of `panic(err)` in the capture goroutine: the deferred calls of
that goroutine run, then the runtime ends the process with status 2. -/
def State.panic (s : State) (deferred : List DevCall) : State :=
  { s with dev := s.dev ++ deferred, status := some 2 }

/-- One iteration of the result loop (lines 125-137), given what
`stream.Recv()` returned. -/
def recvBody (s : State) (r : Except Err StreamingRecognizeResponse) : State :=
  match r with
  | Except.error Err.eof => { s with main := MainPc.ret }
  | Except.error (Err.other c) => s.fatal (Log.cannotStreamResults (Err.other c))
  | Except.ok resp =>
    match resp.Error with
    | some st => s.fatal (Log.couldNotRecognize st)
    | none => { s with out := s.out ++ resp.Results.map Out.result }

/-- The statement after a failing call followed by `log.Fatal(err)`
(lines 53-55, 59-61, 63-65). -/
def fatalOr (s : State) (err : Option Err) (next : MainPc) : State :=
  match err with
  | some e => s.fatal (Log.fatal e)
  | none => { s with main := next }

/-- The transitions of a running process: `none` when the event is not what
the state can do next (the goroutine is elsewhere, the channel is not ready). -/
def next (s : State) (e : Event) : Option State :=
  match e with
  | Event.signal x =>
    match x with
    | Signal.interrupt => some { s with sig := s.sig.trySend Signal.interrupt }
    | Signal.kill => some { s with status := some killedStatus }
  -- main goroutine
  | Event.mGoCoord =>
    if s.main = MainPc.goCoord then
      some { s with main := MainPc.dial, coord := CoordPc.recvSig }
    else none
  | Event.mDial err =>
    -- `portaudio.Initialize()` (its error is dropped), the deadline context, the dial
    if s.main = MainPc.dial then some (fatalOr s err MainPc.newClient) else none
  | Event.mNewClient err =>
    if s.main = MainPc.newClient then some (fatalOr s err MainPc.streamingRecognize) else none
  | Event.mStreamingRecognize err =>
    if s.main = MainPc.streamingRecognize then some (fatalOr s err MainPc.sendConfig) else none
  | Event.mSendConfig err =>
    if s.main = MainPc.sendConfig then
      some (fatalOr { s with sent := s.sent ++ [{ req := configRequest, err := err }] }
        err MainPc.goCapture)
    else none
  | Event.mGoCapture =>
    if s.main = MainPc.goCapture then
      some { s with main := MainPc.recv, capture := CapPc.openStream }
    else none
  | Event.mRecv r =>
    if s.main = MainPc.recv then some (recvBody s r) else none
  | Event.mReturn =>
    -- `main` returns: the deferred `conn.Close()` and `portaudio.Terminate()` run
    -- and the process ends with status 0, whatever the other goroutines do
    if s.main = MainPc.ret then some { s with status := some 0 } else none
  -- signal goroutine
  | Event.sRecvSig =>
    if s.coord = CoordPc.recvSig then
      match s.sig.recv with
      | some (x, c, _) => some { s with sig := c, coord := CoordPc.println x }
      | none => none
    else none
  | Event.sPrintln =>
    match s.coord with
    | CoordPc.println x =>
      some { s with out := s.out ++ [Out.receivedSignal x], coord := CoordPc.send }
    | _ => none
  | Event.sSend =>
    if s.coord = CoordPc.send then
      match s.micStopCh.send true with
      | (c, true) => some { s with micStopCh := c, coord := CoordPc.exit }
      | (c, false) => some { s with micStopCh := c, coord := CoordPc.parked }
    else none
  | Event.sExit =>
    -- `os.Exit(0)`: no deferred call runs
    if s.coord = CoordPc.exit then some { s with status := some 0 } else none
  -- capture goroutine
  | Event.kOpen err =>
    if s.capture = CapPc.openStream then
      let bufIn : List Int := List.replicate bufInLen 0
      let t := { s with bufIn := bufIn, bufWriter := [],
                        dev := s.dev ++ [DevCall.openDefaultStream 1 0 16000 bufIn.length] }
      match err with
      | some e => some ({ t with out := t.out ++ [Out.failedDefaultStream e] }.panic [])
      | none => some { t with capture := CapPc.start }
    else none
  | Event.kStart err =>
    if s.capture = CapPc.start then
      let t := { s with dev := s.dev ++ [DevCall.start] }
      match err with
      | some e => some ({ t with out := t.out ++ [Out.failedInputStream e] }.panic [DevCall.close])
      | none => some { t with capture := CapPc.read }
    else none
  | Event.kRead r =>
    -- `bufWriter.Reset()`, then `micstream.Read()` fills `bufIn` with `int16` samples
    if s.capture = CapPc.read then
      let t := { s with bufWriter := [], dev := s.dev ++ [DevCall.read] }
      match r with
      | Except.error e => some ({ t with out := t.out ++ [Out.failedRead e] }.panic [DevCall.close])
      | Except.ok frame =>
        if frame.length = s.bufIn.length ∧ frame.all isInt16 = true then
          some { t with bufIn := frame, capture := CapPc.write }
        else none
    else none
  | Event.kWrite =>
    if s.capture = CapPc.write then
      some { s with bufWriter := binaryWrite s.bufWriter s.bufIn, capture := CapPc.send }
    else none
  | Event.kSend err =>
    if s.capture = CapPc.send then
      let t := { s with
        sent := s.sent ++ [{ req := StreamingRecognizeRequest.AudioContent s.bufWriter, err := err }],
        capture := CapPc.select }
      match err with
      | some e => some { t with log := t.log ++ [Log.couldNotSendAudio e] }
      | none => some t
    else none
  | Event.kSelect stop =>
    -- `select` with `default`: the receive case is taken exactly when it is ready
    if s.capture = CapPc.select then
      match s.micStopCh.recv with
      | some (_, c, released) =>
        if stop then
          some { s with micStopCh := c, capture := CapPc.turningOff,
                        coord := if released then CoordPc.exit else s.coord }
        else none
      | none => if stop then none else some { s with capture := CapPc.dot }
    else none
  | Event.kDot =>
    if s.capture = CapPc.dot then
      some { s with out := s.out ++ [Out.dot], capture := CapPc.read }
    else none
  | Event.kTurningOff =>
    if s.capture = CapPc.turningOff then
      some { s with out := s.out ++ [Out.turningOffMic], capture := CapPc.stop }
    else none
  | Event.kStop err =>
    if s.capture = CapPc.stop then
      let t := { s with dev := s.dev ++ [DevCall.stop], capture := CapPc.ret }
      match err with
      | some _ => some { t with out := t.out ++ [Out.failedStop] }
      | none => some t
    else none
  | Event.kReturn =>
    -- the deferred `micstream.Close()` runs
    if s.capture = CapPc.ret then
      some { s with dev := s.dev ++ [DevCall.close], capture := CapPc.done }
    else none

/-- The transition function: a process that has ended takes no step. -/
def step (s : State) (e : Event) : Option State :=
  if s.status.isSome then none else next s e

/-- The state after a schedule, `none` when some event of it cannot happen. -/
def run (s : State) : List Event → Option State
  | [] => some s
  | e :: es => (step s e).bind (fun t => run t es)

/-! ## The transition rules -/

/-- The transitions of `step`, one rule per branch of the program. -/
inductive Step : State → Event → State → Prop where
  | signalRelay (s : State) : s.status = none →
      Step s (Event.signal Signal.interrupt) { s with sig := s.sig.trySend Signal.interrupt }
  | signalKill (s : State) : s.status = none →
      Step s (Event.signal Signal.kill) { s with status := some killedStatus }
  | mGoCoord (s : State) : s.status = none → s.main = MainPc.goCoord →
      Step s Event.mGoCoord { s with main := MainPc.dial, coord := CoordPc.recvSig }
  | mDialErr (s : State) (e : Err) : s.status = none → s.main = MainPc.dial →
      Step s (Event.mDial (some e)) (s.fatal (Log.fatal e))
  | mDialOk (s : State) : s.status = none → s.main = MainPc.dial →
      Step s (Event.mDial none) { s with main := MainPc.newClient }
  | mNewClientErr (s : State) (e : Err) : s.status = none → s.main = MainPc.newClient →
      Step s (Event.mNewClient (some e)) (s.fatal (Log.fatal e))
  | mNewClientOk (s : State) : s.status = none → s.main = MainPc.newClient →
      Step s (Event.mNewClient none) { s with main := MainPc.streamingRecognize }
  | mStreamErr (s : State) (e : Err) : s.status = none → s.main = MainPc.streamingRecognize →
      Step s (Event.mStreamingRecognize (some e)) (s.fatal (Log.fatal e))
  | mStreamOk (s : State) : s.status = none → s.main = MainPc.streamingRecognize →
      Step s (Event.mStreamingRecognize none) { s with main := MainPc.sendConfig }
  | mSendConfigErr (s : State) (e : Err) : s.status = none → s.main = MainPc.sendConfig →
      Step s (Event.mSendConfig (some e))
        (State.fatal { s with sent := s.sent ++ [{ req := configRequest, err := some e }] }
          (Log.fatal e))
  | mSendConfigOk (s : State) : s.status = none → s.main = MainPc.sendConfig →
      Step s (Event.mSendConfig none)
        { s with sent := s.sent ++ [{ req := configRequest, err := none }],
                 main := MainPc.goCapture }
  | mGoCapture (s : State) : s.status = none → s.main = MainPc.goCapture →
      Step s Event.mGoCapture { s with main := MainPc.recv, capture := CapPc.openStream }
  | mRecvEof (s : State) : s.status = none → s.main = MainPc.recv →
      Step s (Event.mRecv (Except.error Err.eof)) { s with main := MainPc.ret }
  | mRecvErr (s : State) (c : Nat) : s.status = none → s.main = MainPc.recv →
      Step s (Event.mRecv (Except.error (Err.other c)))
        (s.fatal (Log.cannotStreamResults (Err.other c)))
  | mRecvStatus (s : State) (resp : StreamingRecognizeResponse) (st : Status) :
      s.status = none → s.main = MainPc.recv → resp.Error = some st →
      Step s (Event.mRecv (Except.ok resp)) (s.fatal (Log.couldNotRecognize st))
  | mRecvOk (s : State) (resp : StreamingRecognizeResponse) :
      s.status = none → s.main = MainPc.recv → resp.Error = none →
      Step s (Event.mRecv (Except.ok resp)) { s with out := s.out ++ resp.Results.map Out.result }
  | mReturn (s : State) : s.status = none → s.main = MainPc.ret →
      Step s Event.mReturn { s with status := some 0 }
  | sRecvSig (s : State) (x : Signal) (c : Chan Signal) (b : Bool) :
      s.status = none → s.coord = CoordPc.recvSig → s.sig.recv = some (x, c, b) →
      Step s Event.sRecvSig { s with sig := c, coord := CoordPc.println x }
  | sPrintln (s : State) (x : Signal) : s.status = none → s.coord = CoordPc.println x →
      Step s Event.sPrintln { s with out := s.out ++ [Out.receivedSignal x], coord := CoordPc.send }
  | sSendDone (s : State) (c : Chan Bool) :
      s.status = none → s.coord = CoordPc.send → s.micStopCh.send true = (c, true) →
      Step s Event.sSend { s with micStopCh := c, coord := CoordPc.exit }
  | sSendPark (s : State) (c : Chan Bool) :
      s.status = none → s.coord = CoordPc.send → s.micStopCh.send true = (c, false) →
      Step s Event.sSend { s with micStopCh := c, coord := CoordPc.parked }
  | sExit (s : State) : s.status = none → s.coord = CoordPc.exit →
      Step s Event.sExit { s with status := some 0 }
  | kOpenErr (s : State) (e : Err) : s.status = none → s.capture = CapPc.openStream →
      Step s (Event.kOpen (some e))
        (State.panic
          { s with bufIn := List.replicate bufInLen 0, bufWriter := [],
                   dev := s.dev ++ [DevCall.openDefaultStream 1 0 16000
                                      (List.replicate bufInLen (0 : Int)).length],
                   out := s.out ++ [Out.failedDefaultStream e] } [])
  | kOpenOk (s : State) : s.status = none → s.capture = CapPc.openStream →
      Step s (Event.kOpen none)
        { s with bufIn := List.replicate bufInLen 0, bufWriter := [],
                 dev := s.dev ++ [DevCall.openDefaultStream 1 0 16000
                                    (List.replicate bufInLen (0 : Int)).length],
                 capture := CapPc.start }
  | kStartErr (s : State) (e : Err) : s.status = none → s.capture = CapPc.start →
      Step s (Event.kStart (some e))
        (State.panic { s with dev := s.dev ++ [DevCall.start],
                              out := s.out ++ [Out.failedInputStream e] } [DevCall.close])
  | kStartOk (s : State) : s.status = none → s.capture = CapPc.start →
      Step s (Event.kStart none) { s with dev := s.dev ++ [DevCall.start], capture := CapPc.read }
  | kReadErr (s : State) (e : Err) : s.status = none → s.capture = CapPc.read →
      Step s (Event.kRead (Except.error e))
        (State.panic { s with bufWriter := [], dev := s.dev ++ [DevCall.read],
                              out := s.out ++ [Out.failedRead e] } [DevCall.close])
  | kReadOk (s : State) (frame : List Int) : s.status = none → s.capture = CapPc.read →
      frame.length = s.bufIn.length → frame.all isInt16 = true →
      Step s (Event.kRead (Except.ok frame))
        { s with bufWriter := [], dev := s.dev ++ [DevCall.read], bufIn := frame,
                 capture := CapPc.write }
  | kWrite (s : State) : s.status = none → s.capture = CapPc.write →
      Step s Event.kWrite
        { s with bufWriter := binaryWrite s.bufWriter s.bufIn, capture := CapPc.send }
  | kSendErr (s : State) (e : Err) : s.status = none → s.capture = CapPc.send →
      Step s (Event.kSend (some e))
        { s with sent := s.sent ++
                   [{ req := StreamingRecognizeRequest.AudioContent s.bufWriter, err := some e }],
                 capture := CapPc.select, log := s.log ++ [Log.couldNotSendAudio e] }
  | kSendOk (s : State) : s.status = none → s.capture = CapPc.send →
      Step s (Event.kSend none)
        { s with sent := s.sent ++
                   [{ req := StreamingRecognizeRequest.AudioContent s.bufWriter, err := none }],
                 capture := CapPc.select }
  | kSelectStop (s : State) (v : Bool) (c : Chan Bool) (released : Bool) :
      s.status = none → s.capture = CapPc.select → s.micStopCh.recv = some (v, c, released) →
      Step s (Event.kSelect true)
        { s with micStopCh := c, capture := CapPc.turningOff,
                 coord := if released then CoordPc.exit else s.coord }
  | kSelectDefault (s : State) :
      s.status = none → s.capture = CapPc.select → s.micStopCh.recv = none →
      Step s (Event.kSelect false) { s with capture := CapPc.dot }
  | kDot (s : State) : s.status = none → s.capture = CapPc.dot →
      Step s Event.kDot { s with out := s.out ++ [Out.dot], capture := CapPc.read }
  | kTurningOff (s : State) : s.status = none → s.capture = CapPc.turningOff →
      Step s Event.kTurningOff { s with out := s.out ++ [Out.turningOffMic], capture := CapPc.stop }
  | kStopErr (s : State) (e : Err) : s.status = none → s.capture = CapPc.stop →
      Step s (Event.kStop (some e))
        { s with dev := s.dev ++ [DevCall.stop], capture := CapPc.ret,
                 out := s.out ++ [Out.failedStop] }
  | kStopOk (s : State) : s.status = none → s.capture = CapPc.stop →
      Step s (Event.kStop none) { s with dev := s.dev ++ [DevCall.stop], capture := CapPc.ret }
  | kReturn (s : State) : s.status = none → s.capture = CapPc.ret →
      Step s Event.kReturn { s with dev := s.dev ++ [DevCall.close], capture := CapPc.done }

/-! ## Invariants of the reachable states -/

/-- The stop channel stays unbuffered and empty, and a value waits on it
exactly while the signal goroutine is parked in its send; the goroutines are
started in program order. -/
structure StopChanInv (s : State) : Prop where
  cap_eq : s.micStopCh.cap = 0
  buf_eq : s.micStopCh.buf = []
  sendq_eq : s.micStopCh.sendq = if s.coord = CoordPc.parked then [true] else []
  coord_eq : s.main = MainPc.goCoord → s.coord = CoordPc.notStarted
  capture_eq : s.capture ≠ CapPc.notStarted → s.main = MainPc.recv ∨ s.main = MainPc.ret

/-! ## Schedules and observations used in the statements -/

/-- The schedule in which `stream.Recv()` returns the given responses, one
per iteration of the result loop, each without a receive error. -/
def recvScript (rs : List StreamingRecognizeResponse) : List Event :=
  rs.map (fun r => Event.mRecv (Except.ok r))

/-- The lines that line 136 prints for the given responses: one per entry of
`Results`, in order. -/
def resultLines (rs : List StreamingRecognizeResponse) : List Out :=
  rs.flatMap (fun r => r.Results.map Out.result)

/-- The results dumped on standard output (the `Result:` lines). -/
def printedResults (out : List Out) : List StreamingRecognitionResult :=
  out.filterMap (fun o => match o with
    | Out.result r => some r
    | _ => none)

/-- The entries of the well-formed responses that `stream.Recv()` returns in
a schedule, in order. -/
def receivedResults (evs : List Event) : List StreamingRecognitionResult :=
  evs.flatMap (fun e => match e with
    | Event.mRecv (Except.ok r) => if r.Error = none then r.Results else []
    | _ => [])

/-- The schedule from line 31 to the first `stream.Recv()`, every call
succeeding. -/
def sessionStart : List Event :=
  [Event.mGoCoord, Event.mDial none, Event.mNewClient none, Event.mStreamingRecognize none,
   Event.mSendConfig none, Event.mGoCapture]

/-- The state in which the result loop is entered after `sessionStart`. -/
def atRecv : State :=
  { State.init with main := MainPc.recv, coord := CoordPc.recvSig, capture := CapPc.openStream,
                    sent := [{ req := configRequest, err := none }] }

/-- Two well-formed responses with one entry each. -/
def twoResponses : List StreamingRecognizeResponse :=
  [{ Error := none, Results := [{ tag := 1 }] }, { Error := none, Results := [{ tag := 2 }] }]

/-- Once the capture goroutine has opened the device, `bufIn` has the length
given on line 83. -/
def BufInv (s : State) : Prop :=
  s.capture ≠ CapPc.notStarted → s.capture ≠ CapPc.openStream → s.bufIn.length = bufInLen

/-- A frame of 8196 samples, all equal to 300. -/
def demoFrame : List Int := List.replicate 8196 300

/-- A run up to the first successful device read, of `demoFrame`. -/
def firstRead : List Event :=
  sessionStart ++ [Event.kOpen none, Event.kStart none, Event.kRead (Except.ok demoFrame)]

/-- The state after `firstRead`. -/
def atWrite : State :=
  { atRecv with
    capture := CapPc.write,
    bufIn := demoFrame,
    bufWriter := [],
    dev := [DevCall.openDefaultStream 1 0 16000 (List.replicate bufInLen (0 : Int)).length,
            DevCall.start, DevCall.read] }

/-- The state one step after `firstRead`, at the first `stream.Send` of the
capture loop. -/
def atSend : State :=
  { atWrite with bufWriter := binaryWrite [] demoFrame, capture := CapPc.send }

/-- A run that has completed one pass of the capture loop over `demoFrame` and
stands at the read of the second pass. -/
def secondPass : List Event :=
  firstRead ++ [Event.kWrite, Event.kSend none, Event.kSelect false, Event.kDot]

/-- The state after `secondPass`: the buffers still hold the first frame. -/
def atSecondPass : State :=
  { atRecv with
    capture := CapPc.read,
    bufIn := demoFrame,
    bufWriter := binaryWrite [] demoFrame,
    sent := [{ req := configRequest, err := none },
             { req := StreamingRecognizeRequest.AudioContent (binaryWrite [] demoFrame),
               err := none }],
    out := [Out.dot],
    dev := [DevCall.openDefaultStream 1 0 16000 (List.replicate bufInLen (0 : Int)).length,
            DevCall.start, DevCall.read] }

/-- A frame of 8196 samples, all equal to -2. -/
def nextFrame : List Int := List.replicate 8196 (-2)

/-- The statements of `main` that precede the return of the configuration
send (lines 31-67). -/
def MainPc.beforeConfig : MainPc → Bool
  | MainPc.goCoord => true
  | MainPc.dial => true
  | MainPc.newClient => true
  | MainPc.streamingRecognize => true
  | MainPc.sendConfig => true
  | _ => false

/-- The calls of `stream.Send` so far: none while `main` is before line 67 and
the capture goroutine is not started; afterwards the configuration request
followed by audio-content requests only, and by nothing at all when the
configuration send failed. -/
def SentInv (s : State) : Prop :=
  (s.sent = [] ∧ s.capture = CapPc.notStarted ∧ s.main.beforeConfig = true) ∨
  (∃ e ps, s.sent = { req := configRequest, err := e } :: ps ∧
    (∀ c ∈ ps, ∃ b, c.req = StreamingRecognizeRequest.AudioContent b) ∧
    (e ≠ none → ps = [] ∧ s.status = some 1) ∧
    (s.status = none → s.main.beforeConfig = false))

/-- The exit status a step or schedule leaves: `none` when it cannot happen or
the process is still running. -/
def exitStatus (o : Option State) : Option Nat := o.bind (fun t => t.status)

/-- A run in which one signal arrives during the first pass of the capture
loop and is handled to the end: the capture loop observes the stop signal at
the check of that pass, stops the device and returns, and the signal goroutine
exits the process. -/
def handledSignal : List Event :=
  firstRead ++
    [Event.signal Signal.interrupt, Event.sRecvSig, Event.sPrintln, Event.sSend, Event.kWrite,
     Event.kSend none, Event.kSelect true, Event.kTurningOff, Event.kStop none,
     Event.kReturn, Event.sExit]

/-- The state after `handledSignal`. -/
def afterHandledSignal : State :=
  { atWrite with
    status := some 0,
    coord := CoordPc.exit,
    capture := CapPc.done,
    bufWriter := binaryWrite [] demoFrame,
    sent := [{ req := configRequest, err := none },
             { req := StreamingRecognizeRequest.AudioContent (binaryWrite [] demoFrame),
               err := none }],
    out := [Out.receivedSignal Signal.interrupt, Out.turningOffMic],
    dev := [DevCall.openDefaultStream 1 0 16000 (List.replicate bufInLen (0 : Int)).length,
            DevCall.start, DevCall.read, DevCall.stop, DevCall.close] }

/-- Two states that differ at most in the log and in the errors recorded for
the calls of `stream.Send`. -/
def SameButSendOutcome (s t : State) : Prop :=
  s.status = t.status ∧ s.main = t.main ∧ s.coord = t.coord ∧ s.capture = t.capture ∧
  s.sig = t.sig ∧ s.micStopCh = t.micStopCh ∧ s.bufIn = t.bufIn ∧ s.bufWriter = t.bufWriter ∧
  s.sent.map (fun c => c.req) = t.sent.map (fun c => c.req) ∧ s.out = t.out ∧ s.dev = t.dev

/-- The send of line 35. -/
def Event.isStopSend : Event → Bool
  | Event.sSend => true
  | _ => false

/-- A device read of the capture loop (line 98). -/
def Event.isRead : Event → Bool
  | Event.kRead _ => true
  | _ => false

/-- A `stream.Send` of the capture loop (line 104). -/
def Event.isAudioSend : Event → Bool
  | Event.kSend _ => true
  | _ => false

/-- The statements of the capture goroutine after the stop signal was received
(lines 113-117 and the end). -/
def CapPc.observed : CapPc → Bool
  | CapPc.turningOff => true
  | CapPc.stop => true
  | CapPc.ret => true
  | CapPc.done => true
  | _ => false

/-- The statements of the capture goroutine after the call of
`micstream.Stop()` (line 117 and the end). -/
def CapPc.stopped : CapPc → Bool
  | CapPc.ret => true
  | CapPc.done => true
  | _ => false

/-- How many sends on the stop channel the signal goroutine can still begin. -/
def stopBudget (s : State) : Nat :=
  match s.coord with
  | CoordPc.parked => 0
  | CoordPc.exit => 0
  | _ => 1

/-- How many device reads the capture goroutine can still make while the
signal goroutine waits in its send. -/
def readsLeft (s : State) : Nat :=
  if s.status.isSome then 0
  else if s.coord = CoordPc.parked then
    match s.capture with
    | CapPc.notStarted => 1
    | CapPc.openStream => 1
    | CapPc.start => 1
    | CapPc.read => 1
    | CapPc.dot => 1
    | _ => 0
  else 0

/-- How many audio sends the capture goroutine can still make while the signal
goroutine waits in its send. -/
def sendsLeft (s : State) : Nat :=
  if s.status.isSome then 0
  else if s.coord = CoordPc.parked then
    match s.capture with
    | CapPc.notStarted => 1
    | CapPc.openStream => 1
    | CapPc.start => 1
    | CapPc.read => 1
    | CapPc.dot => 1
    | CapPc.write => 1
    | CapPc.send => 1
    | _ => 0
  else 0

/-- The stop signal has been offered: the signal goroutine waits in its send,
or the capture goroutine has received the signal. -/
def Offered (s : State) : Prop :=
  StopChanInv s ∧ (s.coord = CoordPc.parked ∨ s.capture.observed = true)

/-- A run in which a signal arrives before the dial and the signal goroutine
reaches its send on the stop channel. -/
def earlySignal : List Event :=
  [Event.mGoCoord, Event.signal Signal.interrupt, Event.sRecvSig, Event.sPrintln, Event.sSend]

/-- A run in which one signal arrives during the first pass of the capture
loop, the loop receives the stop signal at its check, and the signal goroutine
then exits the process before the capture goroutine takes another step. -/
def exitAfterHandOff : List Event :=
  firstRead ++
    [Event.signal Signal.interrupt, Event.sRecvSig, Event.sPrintln, Event.sSend, Event.kWrite,
     Event.kSend none, Event.kSelect true, Event.sExit]

/-- A run in which the process is sent `SIGKILL` while `main` waits in
`stream.Recv()`. -/
def killedInRecv : List Event :=
  sessionStart ++ [Event.signal Signal.kill]

/-- A signal sent to the process. -/
def Event.isSignal : Event → Bool
  | Event.signal _ => true
  | _ => false

/-- The capture goroutine has called `micstream.Stop()` whenever it stands
after that call. -/
def StopCalledInv (s : State) : Prop :=
  s.capture.stopped = true → DevCall.stop ∈ s.dev

/-- The signal goroutine stands at `os.Exit(0)`, its send of line 35 over (or
the stop channel has left its invariant, which it does in no run). -/
def Released (s : State) : Prop :=
  ¬ StopChanInv s ∨ s.coord = CoordPc.exit

/-- The state after `exitAfterHandOff`: the process has ended with the capture
goroutine about to print `turning off the mic`. -/
def atExitAfterHandOff : State :=
  { atWrite with
    status := some 0,
    coord := CoordPc.exit,
    capture := CapPc.turningOff,
    bufWriter := binaryWrite [] demoFrame,
    sent := [{ req := configRequest, err := none },
             { req := StreamingRecognizeRequest.AudioContent (binaryWrite [] demoFrame),
               err := none }],
    out := [Out.receivedSignal Signal.interrupt] }

/-- The state after `killedInRecv`. -/
def atKilledInRecv : State :=
  { atRecv with status := some killedStatus }

/-- The state after `earlySignal`: the signal goroutine is parked in its send. -/
def atEarlySignal : State :=
  { State.init with
    main := MainPc.dial,
    coord := CoordPc.parked,
    micStopCh := { cap := 0, buf := [], sendq := [true] },
    out := [Out.receivedSignal Signal.interrupt] }

/-! ## Schedules -/

theorem run_append (s : State) (a b : List Event) :
    run s (a ++ b) = (run s a).bind (fun t => run t b) := by
  induction a generalizing s with
  | nil => simp [run]
  | cons e es ih =>
    simp only [List.cons_append, run]
    cases h : step s e with
    | none => simp
    | some t => simp [ih]

theorem step_running {s t : State} {e : Event} (h : step s e = some t) : s.status = none := by
  unfold step at h
  cases hs : s.status with
  | none => rfl
  | some c => simp [hs] at h

/-- A property that holds at the start and is kept by every step holds after
every schedule. -/
theorem run_invariant (P : State → Prop)
    (hstep : ∀ s e t, P s → step s e = some t → P t) :
    ∀ (evs : List Event) (s t : State), P s → run s evs = some t → P t := by
  intro evs
  induction evs with
  | nil => intro s t hs h; simp [run] at h; exact h ▸ hs
  | cons e es ih =>
    intro s t hs h
    simp only [run] at h
    cases h1 : step s e with
    | none => simp [h1] at h
    | some u =>
      simp [h1] at h
      exact ih u t (hstep s e u hs h1) h

theorem step_sound {s t : State} {e : Event} (h : step s e = some t) : Step s e t := by
  have hr := step_running h
  have h : next s e = some t := by simpa [step, hr] using h
  cases e with
  | signal x =>
    cases x <;> simp [next] at h <;> subst h
    · exact Step.signalRelay s hr
    · exact Step.signalKill s hr
  | mGoCoord =>
    simp [next] at h; obtain ⟨hm, rfl⟩ := h; exact Step.mGoCoord s hr hm
  | mDial err =>
    cases err <;> simp [next, fatalOr] at h <;> obtain ⟨hm, rfl⟩ := h
    · exact Step.mDialOk s hr hm
    · exact Step.mDialErr s _ hr hm
  | mNewClient err =>
    cases err <;> simp [next, fatalOr] at h <;> obtain ⟨hm, rfl⟩ := h
    · exact Step.mNewClientOk s hr hm
    · exact Step.mNewClientErr s _ hr hm
  | mStreamingRecognize err =>
    cases err <;> simp [next, fatalOr] at h <;> obtain ⟨hm, rfl⟩ := h
    · exact Step.mStreamOk s hr hm
    · exact Step.mStreamErr s _ hr hm
  | mSendConfig err =>
    cases err <;> simp [next, fatalOr] at h <;> obtain ⟨hm, rfl⟩ := h
    · exact Step.mSendConfigOk s hr hm
    · exact Step.mSendConfigErr s _ hr hm
  | mGoCapture =>
    simp [next] at h; obtain ⟨hm, rfl⟩ := h; exact Step.mGoCapture s hr hm
  | mRecv r =>
    simp only [next] at h
    split at h
    case isFalse => simp at h
    case isTrue hm =>
      simp only [Option.some.injEq] at h
      subst h
      rcases r with (_ | c) | resp
      · exact Step.mRecvEof s hr hm
      · exact Step.mRecvErr s c hr hm
      · cases hE : resp.Error with
        | none =>
          have := Step.mRecvOk s resp hr hm hE
          simpa [recvBody, hE] using this
        | some st =>
          have := Step.mRecvStatus s resp st hr hm hE
          simpa [recvBody, hE] using this
  | mReturn =>
    simp [next] at h; obtain ⟨hm, rfl⟩ := h; exact Step.mReturn s hr hm
  | sRecvSig =>
    simp only [next] at h
    split at h
    case isFalse => simp at h
    case isTrue hm =>
      cases hc : s.sig.recv with
      | none => simp [hc] at h
      | some p =>
        obtain ⟨x, c, b⟩ := p
        simp [hc] at h
        subst h
        exact Step.sRecvSig s x c b hr hm hc
  | sPrintln =>
    simp only [next] at h
    cases hc : s.coord <;> simp [hc] at h
    subst h
    exact Step.sPrintln s _ hr hc
  | sSend =>
    simp only [next] at h
    split at h
    case isFalse => simp at h
    case isTrue hm =>
      cases hc : s.micStopCh.send true with
      | mk c b =>
        cases b <;> simp [hc] at h <;> subst h
        · exact Step.sSendPark s c hr hm hc
        · exact Step.sSendDone s c hr hm hc
  | sExit =>
    simp [next] at h; obtain ⟨hm, rfl⟩ := h; exact Step.sExit s hr hm
  | kOpen err =>
    simp only [next] at h
    split at h
    case isFalse => simp at h
    case isTrue hm =>
      cases err <;> simp only [Option.some.injEq] at h <;> subst h
      · exact Step.kOpenOk s hr hm
      · exact Step.kOpenErr s _ hr hm
  | kStart err =>
    simp only [next] at h
    split at h
    case isFalse => simp at h
    case isTrue hm =>
      cases err <;> simp only [Option.some.injEq] at h <;> subst h
      · exact Step.kStartOk s hr hm
      · exact Step.kStartErr s _ hr hm
  | kRead r =>
    simp only [next] at h
    split at h
    case isFalse => simp at h
    case isTrue hm =>
      rcases r with e | frame
      · simp only [Option.some.injEq] at h
        subst h
        exact Step.kReadErr s e hr hm
      · simp only at h
        split at h
        case isFalse => simp at h
        case isTrue hf =>
          simp only [Option.some.injEq] at h
          subst h
          exact Step.kReadOk s frame hr hm hf.1 hf.2
  | kWrite =>
    simp [next] at h; obtain ⟨hm, rfl⟩ := h; exact Step.kWrite s hr hm
  | kSend err =>
    cases err <;> simp [next] at h <;> obtain ⟨hm, rfl⟩ := h
    · exact Step.kSendOk s hr hm
    · exact Step.kSendErr s _ hr hm
  | kSelect b =>
    simp only [next] at h
    split at h
    case isFalse => simp at h
    case isTrue hm =>
      cases hc : s.micStopCh.recv with
      | none =>
        cases b <;> simp [hc] at h
        subst h
        exact Step.kSelectDefault s hr hm hc
      | some p =>
        obtain ⟨v, c, released⟩ := p
        cases b <;> simp [hc] at h
        subst h
        exact Step.kSelectStop s v c released hr hm hc
  | kDot =>
    simp [next] at h; obtain ⟨hm, rfl⟩ := h; exact Step.kDot s hr hm
  | kTurningOff =>
    simp [next] at h; obtain ⟨hm, rfl⟩ := h; exact Step.kTurningOff s hr hm
  | kStop err =>
    cases err <;> simp [next] at h <;> obtain ⟨hm, rfl⟩ := h
    · exact Step.kStopOk s hr hm
    · exact Step.kStopErr s _ hr hm
  | kReturn =>
    simp [next] at h; obtain ⟨hm, rfl⟩ := h; exact Step.kReturn s hr hm

/-! ## Invariants -/

theorem Chan.send_unbuffered {α : Type} (c : Chan α) (v : α) (h : c.cap = 0) :
    c.send v = ({ c with sendq := c.sendq ++ [v] }, false) := by
  simp [Chan.send, h]

theorem Chan.recv_parked {α : Type} (c : Chan α) (v : α) (hb : c.buf = []) (hq : c.sendq = [v]) :
    c.recv = some (v, { c with sendq := [] }, true) := by
  simp [Chan.recv, hb, hq]

theorem Chan.recv_idle {α : Type} (c : Chan α) (hb : c.buf = []) (hq : c.sendq = []) :
    c.recv = none := by
  simp [Chan.recv, hb, hq]

theorem stopChanInv_init : StopChanInv State.init := by
  constructor <;> simp [State.init, Chan.make]

/-- What the non-blocking receive of line 112 finds. -/
theorem StopChanInv.recv_eq {s : State} (hP : StopChanInv s) :
    s.micStopCh.recv =
      if s.coord = CoordPc.parked then some (true, { s.micStopCh with sendq := [] }, true)
      else none := by
  by_cases hc : s.coord = CoordPc.parked
  · rw [if_pos hc]
    exact Chan.recv_parked _ _ hP.buf_eq (by rw [hP.sendq_eq, if_pos hc])
  · rw [if_neg hc]
    exact Chan.recv_idle _ hP.buf_eq (by rw [hP.sendq_eq, if_neg hc])

theorem stopChanInv_step (s : State) (e : Event) (t : State)
    (hP : StopChanInv s) (h : step s e = some t) : StopChanInv t := by
  have hrecv := hP.recv_eq
  have hsend := Chan.send_unbuffered s.micStopCh true hP.cap_eq
  obtain ⟨h1, h2, h3, h4, h5⟩ := hP
  have hs := step_sound h
  clear h
  cases hs
  case sSendDone c hr hc hd => rw [hsend] at hd; simp at hd
  case sSendPark c hr hc hd =>
    rw [hsend] at hd
    simp only [Prod.mk.injEq, and_true] at hd
    subst hd
    constructor <;> simp_all
  case kSelectStop v c released hr hc hd =>
    rw [hrecv] at hd
    by_cases hp : s.coord = CoordPc.parked
    · simp only [hp, if_true, Option.some.injEq, Prod.mk.injEq] at hd
      obtain ⟨rfl, rfl, rfl⟩ := hd
      constructor <;> simp_all
    · simp [hp] at hd
  all_goals
    clear hrecv hsend
    constructor <;> simp_all [State.fatal, State.panic, Chan.trySend]

/-! ## The result loop (lines 124-138) -/

theorem run_sessionStart : run State.init sessionStart = some atRecv := by
  rfl

theorem printedResults_append (a b : List Out) :
    printedResults (a ++ b) = printedResults a ++ printedResults b := by
  simp [printedResults]

theorem printedResults_resultLines (rs : List StreamingRecognizeResponse) :
    printedResults (resultLines rs) = rs.flatMap (fun r => r.Results) := by
  induction rs with
  | nil => rfl
  | cons r rs ih =>
    have h1 : printedResults (r.Results.map Out.result) = r.Results := by
      induction r.Results with
      | nil => rfl
      | cons x xs ihx =>
        simp only [printedResults, List.map_cons, List.filterMap_cons] at ihx ⊢
        rw [ihx]
    simp only [resultLines, List.flatMap_cons] at ih ⊢
    rw [printedResults_append, h1, ih]

theorem resultLines_length (rs : List StreamingRecognizeResponse) :
    (resultLines rs).length = (rs.map (fun r => r.Results.length)).sum := by
  induction rs with
  | nil => rfl
  | cons r rs ih =>
    simp only [resultLines, List.flatMap_cons, List.length_append, List.length_map,
      List.map_cons, List.sum_cons] at ih ⊢
    rw [ih]

theorem resultLines_length_single (rs : List StreamingRecognizeResponse)
    (h : ∀ r ∈ rs, r.Results.length = 1) : (resultLines rs).length = rs.length := by
  induction rs with
  | nil => rfl
  | cons r rs ih =>
    have h1 := h r (List.mem_cons_self _ _)
    have h2 := ih (fun x hx => h x (List.mem_cons_of_mem _ hx))
    simp only [resultLines, List.flatMap_cons, List.length_append, List.length_map,
      List.length_cons] at h2 ⊢
    omega

theorem step_recv_ok (s : State) (r : StreamingRecognizeResponse)
    (hs : s.status = none) (hm : s.main = MainPc.recv) (hr : r.Error = none) :
    step s (Event.mRecv (Except.ok r)) = some { s with out := s.out ++ r.Results.map Out.result } := by
  simp [step, next, hs, hm, recvBody, hr]

/-- The loop over well-formed responses: every entry is printed, nothing else
changes. -/
theorem run_recvScript (rs : List StreamingRecognizeResponse) :
    ∀ s : State, s.status = none → s.main = MainPc.recv → (∀ r ∈ rs, r.Error = none) →
      run s (recvScript rs) = some { s with out := s.out ++ resultLines rs } := by
  induction rs with
  | nil => intro s _ _ _; simp [recvScript, run, resultLines]
  | cons r rs ih =>
    intro s hs hm hwf
    have h1 := step_recv_ok s r hs hm (hwf r (List.mem_cons_self _ _))
    have h2 := ih { s with out := s.out ++ r.Results.map Out.result } hs hm
      (fun x hx => hwf x (List.mem_cons_of_mem _ hx))
    simp only [recvScript, List.map_cons, run, h1, Option.some_bind] at h2 ⊢
    rw [h2]
    simp [resultLines, List.append_assoc]

theorem step_ended (s : State) (c : Nat) (h : s.status = some c) (e : Event) :
    step s e = none := by
  simp [step, h]

theorem printedResults_map_result (rs : List StreamingRecognitionResult) :
    printedResults (rs.map Out.result) = rs := by
  induction rs with
  | nil => rfl
  | cons x xs ih =>
    simp only [printedResults, List.map_cons, List.filterMap_cons] at ih ⊢
    rw [ih]

theorem printedResults_step (s : State) (e : Event) (t : State) (h : step s e = some t) :
    printedResults t.out = printedResults s.out ++ receivedResults [e] := by
  have hs := step_sound h
  clear h
  cases hs <;>
    simp_all [receivedResults, printedResults_append, printedResults_map_result,
      State.fatal, State.panic] <;>
    rfl

/-- Whatever the other goroutines do in between, standard output holds one
result line per entry of the well-formed responses received, in order. -/
theorem printedResults_run (evs : List Event) :
    ∀ s t : State, run s evs = some t →
      printedResults t.out = printedResults s.out ++ receivedResults evs := by
  induction evs with
  | nil =>
    intro s t h
    simp only [run, Option.some.injEq] at h
    subst h
    simp [receivedResults]
  | cons e es ih =>
    intro s t h
    simp only [run] at h
    cases h1 : step s e with
    | none => simp [h1] at h
    | some u =>
      simp only [h1, Option.some_bind] at h
      rw [ih u t h, printedResults_step s e u h1]
      simp [receivedResults, List.append_assoc]

/-- C2 (as amended): when `Recv` returns the well-formed responses `rs` and then
`io.EOF`, the result loop prints one line per entry of `Results` of every
response, in order, and nothing else; it then stands after the loop with the
process still running and nothing logged.  The number of lines is the sum of
the entry counts, which is the number of responses when each carries exactly
one entry.  With the other goroutines stepping in between, the result lines
on standard output are still those entries, in order. -/
theorem result_loop_clean_stream (s : State) (rs : List StreamingRecognizeResponse)
    (hs : s.status = none) (hm : s.main = MainPc.recv) (hwf : ∀ r ∈ rs, r.Error = none) :
    run s (recvScript rs ++ [Event.mRecv (Except.error Err.eof)])
        = some { s with out := s.out ++ resultLines rs, main := MainPc.ret }
      ∧ printedResults (s.out ++ resultLines rs)
          = printedResults s.out ++ rs.flatMap (fun r => r.Results)
      ∧ (resultLines rs).length = (rs.map (fun r => r.Results.length)).sum
      ∧ ((∀ r ∈ rs, r.Results.length = 1) → (resultLines rs).length = rs.length)
      ∧ (∀ evs t, run s evs = some t →
          printedResults t.out = printedResults s.out ++ receivedResults evs) := by
  refine ⟨?_, ?_, resultLines_length rs, resultLines_length_single rs,
    fun evs t h => printedResults_run evs s t h⟩
  · rw [run_append, run_recvScript rs s hs hm hwf]
    simp [run, step, next, hs, hm, recvBody]
  · rw [printedResults_append, printedResults_resultLines]

/-- C2, an instance: two responses, one entry each, then end-of-stream. -/
theorem result_loop_clean_stream_witness :
    atRecv.status = none ∧ atRecv.main = MainPc.recv ∧
    (∀ r ∈ twoResponses, r.Error = none) ∧
    (run atRecv (recvScript twoResponses ++ [Event.mRecv (Except.error Err.eof)])
        = some { atRecv with out := atRecv.out ++ resultLines twoResponses, main := MainPc.ret }
      ∧ printedResults (atRecv.out ++ resultLines twoResponses)
          = printedResults atRecv.out ++ twoResponses.flatMap (fun r => r.Results)
      ∧ (resultLines twoResponses).length = (twoResponses.map (fun r => r.Results.length)).sum
      ∧ ((∀ r ∈ twoResponses, r.Results.length = 1) →
          (resultLines twoResponses).length = twoResponses.length)
      ∧ (∀ evs t, run atRecv evs = some t →
          printedResults t.out = printedResults atRecv.out ++ receivedResults evs)) :=
  ⟨rfl, rfl, by simp [twoResponses],
    result_loop_clean_stream atRecv twoResponses rfl rfl (by simp [twoResponses])⟩

/-- C2 as stated fails: one well-formed response with no entry in `Results`,
then end-of-stream.  The loop ends normally (N = 1) and has printed no
`Result:` line. -/
theorem result_loop_clean_stream_counterexample :
    (run State.init (sessionStart ++
        recvScript [{ Error := none, Results := [] }] ++ [Event.mRecv (Except.error Err.eof)])).map
      (fun t => (t.status, t.main, t.log, (printedResults t.out).length))
      = some (none, MainPc.ret, [], 0) := by
  rfl

/-- C3 (as amended): when the first receives return the well-formed responses
`rs` and the next one returns an error other than `io.EOF`, the result loop
has printed one line per entry of `Results` of those responses (their number
is the sum of the entry counts, and the number of responses when each carries
exactly one entry); it then logs the error and ends the process with status 1,
after which no step of the program happens, so nothing more is printed.  With
the other goroutines stepping in between, the result lines on standard output
are still the entries of the well-formed responses received, in order. -/
theorem result_loop_receive_error (s : State) (rs : List StreamingRecognizeResponse) (c : Nat)
    (hs : s.status = none) (hm : s.main = MainPc.recv) (hwf : ∀ r ∈ rs, r.Error = none) :
    run s (recvScript rs ++ [Event.mRecv (Except.error (Err.other c))])
        = some { s with out := s.out ++ resultLines rs,
                        log := s.log ++ [Log.cannotStreamResults (Err.other c)],
                        status := some 1 }
      ∧ printedResults (s.out ++ resultLines rs)
          = printedResults s.out ++ rs.flatMap (fun r => r.Results)
      ∧ (resultLines rs).length = (rs.map (fun r => r.Results.length)).sum
      ∧ ((∀ r ∈ rs, r.Results.length = 1) → (resultLines rs).length = rs.length)
      ∧ (∀ e : Event, step { s with out := s.out ++ resultLines rs,
                                    log := s.log ++ [Log.cannotStreamResults (Err.other c)],
                                    status := some 1 } e = none)
      ∧ (∀ evs t, run s evs = some t →
          printedResults t.out = printedResults s.out ++ receivedResults evs) := by
  refine ⟨?_, ?_, resultLines_length rs, resultLines_length_single rs, ?_,
    fun evs t h => printedResults_run evs s t h⟩
  · rw [run_append, run_recvScript rs s hs hm hwf]
    simp [run, step, next, hs, hm, recvBody, State.fatal]
  · rw [printedResults_append, printedResults_resultLines]
  · intro e
    exact step_ended _ 1 rfl e

/-- C3, an instance: two responses with one entry each, then a receive error. -/
theorem result_loop_receive_error_witness :
    atRecv.status = none ∧ atRecv.main = MainPc.recv ∧
    (∀ r ∈ twoResponses, r.Error = none) ∧
    (run atRecv (recvScript twoResponses ++ [Event.mRecv (Except.error (Err.other 14))])
        = some { atRecv with out := atRecv.out ++ resultLines twoResponses,
                             log := atRecv.log ++ [Log.cannotStreamResults (Err.other 14)],
                             status := some 1 }
      ∧ printedResults (atRecv.out ++ resultLines twoResponses)
          = printedResults atRecv.out ++ twoResponses.flatMap (fun r => r.Results)
      ∧ (resultLines twoResponses).length = (twoResponses.map (fun r => r.Results.length)).sum
      ∧ ((∀ r ∈ twoResponses, r.Results.length = 1) →
          (resultLines twoResponses).length = twoResponses.length)
      ∧ (∀ e : Event, step { atRecv with out := atRecv.out ++ resultLines twoResponses,
                                         log := atRecv.log ++ [Log.cannotStreamResults (Err.other 14)],
                                         status := some 1 } e = none)
      ∧ (∀ evs t, run atRecv evs = some t →
          printedResults t.out = printedResults atRecv.out ++ receivedResults evs)) :=
  ⟨rfl, rfl, by simp [twoResponses],
    result_loop_receive_error atRecv twoResponses 14 rfl rfl (by simp [twoResponses])⟩

/-- C3 as stated fails: the first receive returns a well-formed response with
three entries, the second (N = 2) an error other than `io.EOF`.  The process
ends with status 1 having printed three `Result:` lines, not N - 1 = 1. -/
theorem result_loop_receive_error_counterexample :
    (run State.init (sessionStart ++
        recvScript [{ Error := none, Results := [{ tag := 1 }, { tag := 2 }, { tag := 3 }] }] ++
        [Event.mRecv (Except.error (Err.other 14))])).map
      (fun t => (t.status, t.log, (printedResults t.out).length))
      = some (some 1, [Log.cannotStreamResults (Err.other 14)], 3) := by
  rfl

/-- C9: a response that carries a service-reported error is logged and ends the
process with status 1; standard output is left as it was, so none of the
entries in its `Results` is printed, whatever they are, and no step of the
program happens afterwards. -/
theorem result_loop_service_error (s : State) (resp : StreamingRecognizeResponse) (st : Status)
    (hs : s.status = none) (hm : s.main = MainPc.recv) (he : resp.Error = some st) :
    step s (Event.mRecv (Except.ok resp))
        = some { s with log := s.log ++ [Log.couldNotRecognize st], status := some 1 }
      ∧ (∀ t : State, step s (Event.mRecv (Except.ok resp)) = some t →
          t.out = s.out ∧ t.status = some 1 ∧ ∀ e : Event, step t e = none) := by
  have h : step s (Event.mRecv (Except.ok resp))
      = some { s with log := s.log ++ [Log.couldNotRecognize st], status := some 1 } := by
    simp [step, next, hs, hm, recvBody, he, State.fatal]
  refine ⟨h, ?_⟩
  intro t ht
  rw [h] at ht
  simp only [Option.some.injEq] at ht
  subst ht
  exact ⟨rfl, rfl, fun e => step_ended _ 1 rfl e⟩

/-- C9, an instance: a response with an error and two entries. -/
theorem result_loop_service_error_witness :
    atRecv.status = none ∧ atRecv.main = MainPc.recv ∧
    (step atRecv (Event.mRecv (Except.ok
        { Error := some { code := 3 }, Results := [{ tag := 1 }, { tag := 2 }] }))
        = some { atRecv with log := atRecv.log ++ [Log.couldNotRecognize { code := 3 }],
                             status := some 1 }
      ∧ (∀ t : State, step atRecv (Event.mRecv (Except.ok
            { Error := some { code := 3 }, Results := [{ tag := 1 }, { tag := 2 }] })) = some t →
          t.out = atRecv.out ∧ t.status = some 1 ∧ ∀ e : Event, step t e = none)) :=
  ⟨rfl, rfl, result_loop_service_error atRecv
    { Error := some { code := 3 }, Results := [{ tag := 1 }, { tag := 2 }] } { code := 3 }
    rfl rfl rfl⟩

/-! ## The serialisation of a frame (lines 97-108) -/

theorem toUint16_lt (x : Int) : toUint16 x < 65536 := by
  unfold toUint16; omega

theorem toInt16_toUint16 (x : Int) (h : isInt16 x = true) : toInt16 (toUint16 x) = x := by
  simp only [isInt16, Bool.and_eq_true, decide_eq_true_eq] at h
  unfold toInt16 toUint16
  split <;> omega

theorem uint16LE_putUint16 (v : Nat) (h : v < 65536) :
    uint16LE (v % 256) (v / 256 % 256) = v := by
  unfold uint16LE; omega

theorem encodeInt16s_cons (x : Int) (xs : List Int) :
    encodeInt16s (x :: xs) = toUint16 x % 256 :: toUint16 x / 256 % 256 :: encodeInt16s xs := by
  simp [encodeInt16s, putUint16]

theorem encodeInt16s_length (xs : List Int) : (encodeInt16s xs).length = 2 * xs.length := by
  induction xs with
  | nil => rfl
  | cons x xs ih => rw [encodeInt16s_cons]; simp [ih]; omega

theorem decode_encode (xs : List Int) (h : xs.all isInt16 = true) :
    decodeInt16s (encodeInt16s xs) = xs := by
  induction xs with
  | nil => rfl
  | cons x xs ih =>
    simp only [List.all_cons, Bool.and_eq_true] at h
    rw [encodeInt16s_cons, decodeInt16s, uint16LE_putUint16 _ (toUint16_lt x),
      toInt16_toUint16 x h.1, ih h.2]

theorem encodeInt16s_low (xs : List Int) (i : Nat) :
    (encodeInt16s xs)[2 * i]? = (xs[i]?).map (fun x => toUint16 x % 256) := by
  induction xs generalizing i with
  | nil => simp [encodeInt16s]
  | cons x xs ih =>
    rw [encodeInt16s_cons]
    cases i with
    | zero => simp
    | succ j =>
      have : 2 * (j + 1) = 2 * j + 1 + 1 := by ring
      rw [this]
      simp [ih]

theorem encodeInt16s_high (xs : List Int) (i : Nat) :
    (encodeInt16s xs)[2 * i + 1]? = (xs[i]?).map (fun x => toUint16 x / 256) := by
  induction xs generalizing i with
  | nil => simp [encodeInt16s]
  | cons x xs ih =>
    rw [encodeInt16s_cons]
    cases i with
    | zero =>
      have := toUint16_lt x
      simp
      omega
    | succ j =>
      have : 2 * (j + 1) + 1 = (2 * j + 1) + 1 + 1 := by ring
      rw [this]
      simp [ih]

theorem bufInv_step (s : State) (e : Event) (t : State)
    (hP : BufInv s) (h : step s e = some t) : BufInv t := by
  have hs := step_sound h
  clear h
  unfold BufInv at hP ⊢
  cases hs <;> simp_all [State.fatal, State.panic]

theorem bufInv_reachable (evs : List Event) (s : State) (h : run State.init evs = some s) :
    BufInv s :=
  run_invariant BufInv bufInv_step evs State.init s (by simp [BufInv, State.init]) h

theorem step_read_ok (s : State) (frame : List Int) (hs : s.status = none)
    (hc : s.capture = CapPc.read) (hlen : frame.length = s.bufIn.length)
    (hrange : frame.all isInt16 = true) :
    step s (Event.kRead (Except.ok frame))
      = some { s with bufWriter := [], dev := s.dev ++ [DevCall.read], bufIn := frame,
                      capture := CapPc.write } := by
  simp only [step, next, hs, hc, Option.isSome_none, Bool.false_eq_true, if_false, if_true]
  rw [if_pos ⟨hlen, hrange⟩]

theorem step_write (s : State) (hs : s.status = none) (hc : s.capture = CapPc.write) :
    step s Event.kWrite
      = some { s with bufWriter := binaryWrite s.bufWriter s.bufIn, capture := CapPc.send } := by
  simp [step, next, hs, hc]

theorem step_send (s : State) (err : Option Err) (hs : s.status = none)
    (hc : s.capture = CapPc.send) :
    ∃ t, step s (Event.kSend err) = some t ∧
      t.sent = s.sent ++ [{ req := StreamingRecognizeRequest.AudioContent s.bufWriter, err := err }] ∧
      t.capture = CapPc.select ∧ t.status = none ∧
      t.log = s.log ++ (match err with
        | some e => [Log.couldNotSendAudio e]
        | none => []) ∧
      t.main = s.main ∧ t.coord = s.coord ∧ t.micStopCh = s.micStopCh ∧ t.sig = s.sig ∧
      t.bufIn = s.bufIn ∧ t.bufWriter = s.bufWriter ∧ t.out = s.out ∧ t.dev = s.dev := by
  cases err <;> simp [step, next, hs, hc]

/-- The three steps of one pass: read, serialise, send. -/
theorem run_read_write_send (s : State) (frame : List Int) (err : Option Err)
    (hs : s.status = none) (hc : s.capture = CapPc.read) (hlen : frame.length = s.bufIn.length)
    (hrange : frame.all isInt16 = true) :
    ∃ t, run s [Event.kRead (Except.ok frame), Event.kWrite, Event.kSend err] = some t ∧
      t.sent = s.sent ++
        [{ req := StreamingRecognizeRequest.AudioContent (encodeInt16s frame), err := err }] ∧
      t.capture = CapPc.select ∧ t.status = none ∧
      t.log = s.log ++ (match err with
        | some e => [Log.couldNotSendAudio e]
        | none => []) ∧
      t.main = s.main ∧ t.coord = s.coord ∧ t.micStopCh = s.micStopCh ∧
      t.bufIn = frame ∧ t.out = s.out ∧ t.dev = s.dev ++ [DevCall.read] := by
  have h1 := step_read_ok s frame hs hc hlen hrange
  have h2 := step_write { s with bufWriter := [], dev := s.dev ++ [DevCall.read], bufIn := frame,
                                 capture := CapPc.write } hs rfl
  obtain ⟨t, h3, h4, h5, h6, h7, h8, h9, h10, _, h12, _, h14, h15⟩ :=
    step_send { s with bufWriter := binaryWrite [] frame, dev := s.dev ++ [DevCall.read],
                       bufIn := frame, capture := CapPc.send } err hs rfl
  refine ⟨t, ?_, ?_, h5, h6, h7, h8, h9, h10, h12, h14, h15⟩
  · simp only [run, h1, Option.some_bind, h2]
    simpa [run] using h3
  · simpa [binaryWrite] using h4

/-- C8: in every pass of the capture loop of every run (the process running and
the capture goroutine at the read of line 98), for every frame of 8196 `int16`
samples the device delivers and whatever `stream.Send` returns, the pass hands
`stream.Send` one audio-content request whose payload is the little-endian
serialisation of that frame and nothing else: 16392 bytes, bytes `2i` and
`2i+1` the low and the high byte of `uint16(sample i)`, and the payload read
back as little-endian `int16` is the frame. -/
theorem capture_payload (evs : List Event) (s : State) (frame : List Int) (err : Option Err)
    (hrun : run State.init evs = some s) (hs : s.status = none) (hc : s.capture = CapPc.read)
    (hlen : frame.length = 8196) (hrange : frame.all isInt16 = true) :
    ∃ t, run s [Event.kRead (Except.ok frame), Event.kWrite, Event.kSend err] = some t ∧
      t.sent = s.sent ++
        [{ req := StreamingRecognizeRequest.AudioContent (encodeInt16s frame), err := err }] ∧
      (encodeInt16s frame).length = 16392 ∧
      (∀ i, i < 8196 →
        (encodeInt16s frame)[2 * i]? = (frame[i]?).map (fun x => toUint16 x % 256) ∧
        (encodeInt16s frame)[2 * i + 1]? = (frame[i]?).map (fun x => toUint16 x / 256)) ∧
      decodeInt16s (encodeInt16s frame) = frame := by
  have hb : s.bufIn.length = bufInLen :=
    bufInv_reachable evs s hrun (by rw [hc]; decide) (by rw [hc]; decide)
  obtain ⟨t, h1, h2, _⟩ := run_read_write_send s frame err hs hc (by rw [hb, hlen]; rfl) hrange
  refine ⟨t, h1, h2, ?_, ?_, decode_encode frame hrange⟩
  · rw [encodeInt16s_length, hlen]
  · intro i _
    exact ⟨encodeInt16s_low frame i, encodeInt16s_high frame i⟩

theorem run_cons_of_step {s t : State} {e : Event} (h : step s e = some t) (es : List Event) :
    run s (e :: es) = run t es := by
  simp [run, h]

theorem all_replicate_of {α : Type} (p : α → Bool) (a : α) (h : p a = true) (n : Nat) :
    (List.replicate n a).all p = true := by
  induction n with
  | zero => rfl
  | succ n ih => simp [List.replicate_succ, h]

theorem demoFrame_length : demoFrame.length = 8196 :=
  List.length_replicate _ _

theorem demoFrame_range : demoFrame.all isInt16 = true :=
  all_replicate_of isInt16 300 (by decide) 8196

theorem run_firstRead : run State.init firstRead = some atWrite := by
  have h1 : step atRecv (Event.kOpen none) = some
      { atRecv with
        bufIn := List.replicate bufInLen 0,
        bufWriter := [],
        dev := [DevCall.openDefaultStream 1 0 16000 (List.replicate bufInLen (0 : Int)).length],
        capture := CapPc.start } := rfl
  have h2 : step
      { atRecv with
        bufIn := List.replicate bufInLen 0,
        bufWriter := [],
        dev := [DevCall.openDefaultStream 1 0 16000 (List.replicate bufInLen (0 : Int)).length],
        capture := CapPc.start } (Event.kStart none) = some
      { atRecv with
        bufIn := List.replicate bufInLen 0,
        bufWriter := [],
        dev := [DevCall.openDefaultStream 1 0 16000 (List.replicate bufInLen (0 : Int)).length,
                DevCall.start],
        capture := CapPc.read } := rfl
  have h3 := step_read_ok
    { atRecv with
      bufIn := List.replicate bufInLen 0,
      bufWriter := [],
      dev := [DevCall.openDefaultStream 1 0 16000 (List.replicate bufInLen (0 : Int)).length,
              DevCall.start],
      capture := CapPc.read } demoFrame rfl rfl
    (by rw [demoFrame_length]; exact (List.length_replicate _ _).symm) demoFrame_range
  rw [firstRead, run_append, run_sessionStart, Option.some_bind, run_cons_of_step h1,
    run_cons_of_step h2, run_cons_of_step h3]
  rfl

theorem run_secondPass : run State.init secondPass = some atSecondPass := by
  rw [secondPass, run_append, run_firstRead]
  rfl

theorem run_atSend : run State.init (firstRead ++ [Event.kWrite]) = some atSend := by
  rw [run_append, run_firstRead]
  rfl

theorem run_handledSignal : run State.init handledSignal = some afterHandledSignal := by
  rw [handledSignal, run_append, run_firstRead]
  rfl

theorem nextFrame_length : nextFrame.length = 8196 :=
  List.length_replicate _ _

theorem nextFrame_range : nextFrame.all isInt16 = true :=
  all_replicate_of isInt16 (-2) (by decide) 8196

/-- C8, an instance: the second pass of a run, with the buffers still holding
the first frame, the device delivering `nextFrame`. -/
theorem capture_payload_witness :
    run State.init secondPass = some atSecondPass ∧ atSecondPass.status = none ∧
    atSecondPass.capture = CapPc.read ∧ nextFrame.length = 8196 ∧
    nextFrame.all isInt16 = true ∧
    ∃ t, run atSecondPass [Event.kRead (Except.ok nextFrame), Event.kWrite, Event.kSend none]
        = some t ∧
      t.sent = atSecondPass.sent ++
        [{ req := StreamingRecognizeRequest.AudioContent (encodeInt16s nextFrame), err := none }] ∧
      (encodeInt16s nextFrame).length = 16392 ∧
      (∀ i, i < 8196 →
        (encodeInt16s nextFrame)[2 * i]? = (nextFrame[i]?).map (fun x => toUint16 x % 256) ∧
        (encodeInt16s nextFrame)[2 * i + 1]? = (nextFrame[i]?).map (fun x => toUint16 x / 256)) ∧
      decodeInt16s (encodeInt16s nextFrame) = nextFrame :=
  ⟨run_secondPass, rfl, rfl, nextFrame_length, nextFrame_range,
    capture_payload secondPass atSecondPass nextFrame none run_secondPass rfl rfl
      nextFrame_length nextFrame_range⟩

/-! ## The order of the requests on the stream -/

theorem sentInv_step (s : State) (e : Event) (t : State)
    (hP : SentInv s) (h : step s e = some t) : SentInv t := by
  have hs := step_sound h
  clear h
  rcases hP with ⟨h1, h2, h3⟩ | ⟨e0, ps, h1, h2, h3, h4⟩
  · cases hs
    case mSendConfigErr e hr hm =>
      right
      exact ⟨some e, [], by simp [State.fatal, h1], by simp, by simp [State.fatal],
        by simp [State.fatal]⟩
    case mSendConfigOk hr hm =>
      right
      exact ⟨none, [], by simp [h1], by simp, by simp, by simp [MainPc.beforeConfig]⟩
    all_goals
      left
      simp_all [State.fatal, State.panic, MainPc.beforeConfig]
  · have hrun : s.status = none := by cases hs <;> assumption
    have he0 : e0 = none := by
      by_contra hne
      have := (h3 hne).2
      rw [hrun] at this
      exact absurd this (by simp)
    subst he0
    have hb := h4 hrun
    right
    cases hs
    case kSendErr e hr hc =>
      refine ⟨none, ps ++ [{ req := StreamingRecognizeRequest.AudioContent s.bufWriter,
                             err := some e }], by simp [h1], ?_, by simp, fun _ => by simpa using hb⟩
      intro c hc
      rcases List.mem_append.1 hc with hc | hc
      · exact h2 c hc
      · exact ⟨s.bufWriter, by simp at hc; rw [hc]⟩
    case kSendOk hr hc =>
      refine ⟨none, ps ++ [{ req := StreamingRecognizeRequest.AudioContent s.bufWriter,
                             err := none }], by simp [h1], ?_, by simp, fun _ => by simpa using hb⟩
      intro c hc
      rcases List.mem_append.1 hc with hc | hc
      · exact h2 c hc
      · exact ⟨s.bufWriter, by simp at hc; rw [hc]⟩
    all_goals
      refine ⟨none, ps, ?_, h2, by simp, ?_⟩ <;>
        simp_all [State.fatal, State.panic, MainPc.beforeConfig]

theorem sentInv_reachable (evs : List Event) (s : State) (h : run State.init evs = some s) :
    SentInv s :=
  run_invariant SentInv sentInv_step evs State.init s
    (Or.inl ⟨rfl, rfl, rfl⟩) h

/-- C1: in every run that has called `stream.Send` at all, the first request is
the configuration request (LINEAR16, 16000 Hz, "en-US"), every later request is
an audio-content request, so the configuration is sent once and no audio
content precedes it; and when the configuration send failed nothing is sent
after it. -/
theorem config_is_first_request (evs : List Event) (s : State)
    (hrun : run State.init evs = some s) (hsent : s.sent ≠ []) :
    ∃ e ps,
      s.sent = SendCall.mk (StreamingRecognizeRequest.StreamingConfig
          (RecognitionConfig.mk AudioEncoding.LINEAR16 16000 "en-US")) e :: ps ∧
      (∀ c ∈ ps, ∃ b, c.req = StreamingRecognizeRequest.AudioContent b) ∧
      (∀ c ∈ ps, c.req ≠ StreamingRecognizeRequest.StreamingConfig
          (RecognitionConfig.mk AudioEncoding.LINEAR16 16000 "en-US")) ∧
      (e ≠ none → ps = []) := by
  rcases sentInv_reachable evs s hrun with ⟨h1, _, _⟩ | ⟨e, ps, h1, h2, h3, _⟩
  · exact absurd h1 hsent
  · refine ⟨e, ps, h1, h2, ?_, fun he => (h3 he).1⟩
    intro c hc hcfg
    obtain ⟨b, hb⟩ := h2 c hc
    rw [hb] at hcfg
    exact absurd hcfg (by simp)

/-- C1, an instance: a run that sent the configuration and one frame. -/
theorem config_is_first_request_witness :
    run State.init secondPass = some atSecondPass ∧ atSecondPass.sent ≠ [] ∧
    ∃ e ps,
      atSecondPass.sent = SendCall.mk (StreamingRecognizeRequest.StreamingConfig
          (RecognitionConfig.mk AudioEncoding.LINEAR16 16000 "en-US")) e :: ps ∧
      (∀ c ∈ ps, ∃ b, c.req = StreamingRecognizeRequest.AudioContent b) ∧
      (∀ c ∈ ps, c.req ≠ StreamingRecognizeRequest.StreamingConfig
          (RecognitionConfig.mk AudioEncoding.LINEAR16 16000 "en-US")) ∧
      (e ≠ none → ps = []) :=
  ⟨run_secondPass, by simp [atSecondPass],
    config_is_first_request secondPass atSecondPass run_secondPass (by simp [atSecondPass])⟩

/-! ## Exit status -/

theorem step_status_zero {s t : State} {e : Event} (h : step s e = some t)
    (h0 : t.status = some 0) : e = Event.sExit ∨ e = Event.mReturn := by
  have hs := step_sound h
  have hr := step_running h
  clear h
  cases hs <;> simp_all [State.fatal, State.panic, killedStatus]

/-- C6: from every state of a running process, the `os.Exit(0)` of the signal
goroutine (line 36) and the return of `main` after the result loop ended on
`io.EOF` leave exit status 0; a failure of the dial, of the client creation, of
the stream opening, of the configuration send, a receive error other than
`io.EOF` and a service-reported error leave status 1 (`log.Fatal`), a failure
to open or to start the audio device leaves status 2 (`panic`); and a step
that leaves status 0 is one of the first two. -/
theorem exit_status (s : State) (hs : s.status = none) :
    (s.coord = CoordPc.exit → exitStatus (step s Event.sExit) = some 0) ∧
    (s.main = MainPc.ret → exitStatus (step s Event.mReturn) = some 0) ∧
    (s.main = MainPc.recv →
      exitStatus (run s [Event.mRecv (Except.error Err.eof), Event.mReturn]) = some 0) ∧
    (s.main = MainPc.dial → ∀ e, exitStatus (step s (Event.mDial (some e))) = some 1) ∧
    (s.main = MainPc.newClient → ∀ e, exitStatus (step s (Event.mNewClient (some e))) = some 1) ∧
    (s.main = MainPc.streamingRecognize →
      ∀ e, exitStatus (step s (Event.mStreamingRecognize (some e))) = some 1) ∧
    (s.main = MainPc.sendConfig →
      ∀ e, exitStatus (step s (Event.mSendConfig (some e))) = some 1) ∧
    (s.main = MainPc.recv →
      ∀ c, exitStatus (step s (Event.mRecv (Except.error (Err.other c)))) = some 1) ∧
    (s.main = MainPc.recv → ∀ resp st, resp.Error = some st →
      exitStatus (step s (Event.mRecv (Except.ok resp))) = some 1) ∧
    (s.capture = CapPc.openStream → ∀ e, exitStatus (step s (Event.kOpen (some e))) = some 2) ∧
    (s.capture = CapPc.start → ∀ e, exitStatus (step s (Event.kStart (some e))) = some 2) ∧
    (∀ e t, step s e = some t → t.status = some 0 → e = Event.sExit ∨ e = Event.mReturn) := by
  refine ⟨?_, ?_, ?_, ?_, ?_, ?_, ?_, ?_, ?_, ?_, ?_, ?_⟩
  · intro h; simp [exitStatus, step, next, hs, h]
  · intro h; simp [exitStatus, step, next, hs, h]
  · intro h; simp [exitStatus, run, step, next, hs, h, recvBody]
  · intro h e; simp [exitStatus, step, next, hs, h, fatalOr, State.fatal]
  · intro h e; simp [exitStatus, step, next, hs, h, fatalOr, State.fatal]
  · intro h e; simp [exitStatus, step, next, hs, h, fatalOr, State.fatal]
  · intro h e; simp [exitStatus, step, next, hs, h, fatalOr, State.fatal]
  · intro h c; simp [exitStatus, step, next, hs, h, recvBody, State.fatal]
  · intro h resp st he; simp [exitStatus, step, next, hs, h, recvBody, he, State.fatal]
  · intro h e; simp [exitStatus, step, next, hs, h, State.panic]
  · intro h e; simp [exitStatus, step, next, hs, h, State.panic]
  · intro e t h h0; exact step_status_zero h h0

/-- C6, an instance: the state in which the result loop is entered and the
capture goroutine is about to open the device. -/
theorem exit_status_witness :
    atRecv.status = none ∧
    ((atRecv.coord = CoordPc.exit → exitStatus (step atRecv Event.sExit) = some 0) ∧
    (atRecv.main = MainPc.ret → exitStatus (step atRecv Event.mReturn) = some 0) ∧
    (atRecv.main = MainPc.recv →
      exitStatus (run atRecv [Event.mRecv (Except.error Err.eof), Event.mReturn]) = some 0) ∧
    (atRecv.main = MainPc.dial → ∀ e, exitStatus (step atRecv (Event.mDial (some e))) = some 1) ∧
    (atRecv.main = MainPc.newClient →
      ∀ e, exitStatus (step atRecv (Event.mNewClient (some e))) = some 1) ∧
    (atRecv.main = MainPc.streamingRecognize →
      ∀ e, exitStatus (step atRecv (Event.mStreamingRecognize (some e))) = some 1) ∧
    (atRecv.main = MainPc.sendConfig →
      ∀ e, exitStatus (step atRecv (Event.mSendConfig (some e))) = some 1) ∧
    (atRecv.main = MainPc.recv →
      ∀ c, exitStatus (step atRecv (Event.mRecv (Except.error (Err.other c)))) = some 1) ∧
    (atRecv.main = MainPc.recv → ∀ resp st, resp.Error = some st →
      exitStatus (step atRecv (Event.mRecv (Except.ok resp))) = some 1) ∧
    (atRecv.capture = CapPc.openStream →
      ∀ e, exitStatus (step atRecv (Event.kOpen (some e))) = some 2) ∧
    (atRecv.capture = CapPc.start →
      ∀ e, exitStatus (step atRecv (Event.kStart (some e))) = some 2) ∧
    (∀ e t, step atRecv e = some t → t.status = some 0 → e = Event.sExit ∨ e = Event.mReturn)) :=
  ⟨rfl, exit_status atRecv rfl⟩

/-- Each of these ways to end the process occurs in a run from line 31. -/
theorem exit_paths_occur :
    exitStatus (run State.init [Event.mGoCoord, Event.mDial (some (Err.other 1))]) = some 1 ∧
    exitStatus (run State.init
      [Event.mGoCoord, Event.mDial none, Event.mNewClient (some (Err.other 1))]) = some 1 ∧
    exitStatus (run State.init
      [Event.mGoCoord, Event.mDial none, Event.mNewClient none,
       Event.mStreamingRecognize (some (Err.other 1))]) = some 1 ∧
    exitStatus (run State.init
      [Event.mGoCoord, Event.mDial none, Event.mNewClient none, Event.mStreamingRecognize none,
       Event.mSendConfig (some (Err.other 1))]) = some 1 ∧
    exitStatus (run State.init
      (sessionStart ++ [Event.mRecv (Except.error (Err.other 1))])) = some 1 ∧
    exitStatus (run State.init
      (sessionStart ++ [Event.mRecv (Except.ok { Error := some { code := 3 }, Results := [] })]))
        = some 1 ∧
    exitStatus (run State.init (sessionStart ++ [Event.kOpen (some (Err.other 1))])) = some 2 ∧
    exitStatus (run State.init
      (sessionStart ++ [Event.kOpen none, Event.kStart (some (Err.other 1))])) = some 2 ∧
    exitStatus (run State.init
      (sessionStart ++ [Event.mRecv (Except.error Err.eof), Event.mReturn])) = some 0 ∧
    exitStatus (run State.init handledSignal) = some 0 ∧
    exitStatus (run State.init killedInRecv) = some 137 := by
  refine ⟨rfl, rfl, rfl, rfl, rfl, rfl, rfl, rfl, rfl, ?_, rfl⟩
  rw [run_handledSignal]
  rfl

/-! ## A failed send in the capture loop -/

theorem sameButSendOutcome_step {s t s1 : State} {e : Event}
    (hrel : SameButSendOutcome s t) (h : step s e = some s1) :
    ∃ t1, step t e = some t1 ∧ SameButSendOutcome s1 t1 := by
  obtain ⟨e1, e2, e3, e4, e5, e6, e7, e8, e9, e10, e11⟩ := hrel
  have hs := step_sound h
  clear h
  cases hs
  case sPrintln x hr hc =>
    have ht : t.coord = CoordPc.println x := by rw [← e3, hc]
    have hr1 : t.status = none := by rw [← e1, hr]
    refine ⟨{ t with out := t.out ++ [Out.receivedSignal x], coord := CoordPc.send }, ?_, ?_⟩
    · simp [step, next, hr1, ht]
    · simp_all [SameButSendOutcome]
  all_goals
    simp_all [step, next, SameButSendOutcome, fatalOr, recvBody, State.fatal, State.panic]

theorem SameButSendOutcome.symm {s t : State} (h : SameButSendOutcome s t) :
    SameButSendOutcome t s := by
  obtain ⟨e1, e2, e3, e4, e5, e6, e7, e8, e9, e10, e11⟩ := h
  exact ⟨e1.symm, e2.symm, e3.symm, e4.symm, e5.symm, e6.symm, e7.symm, e8.symm, e9.symm,
    e10.symm, e11.symm⟩

theorem sameButSendOutcome_run (evs : List Event) :
    ∀ s t s1 : State, SameButSendOutcome s t → run s evs = some s1 →
      ∃ t1, run t evs = some t1 ∧ SameButSendOutcome s1 t1 := by
  induction evs with
  | nil =>
    intro s t s1 hrel h
    simp only [run, Option.some.injEq] at h
    exact ⟨t, rfl, h ▸ hrel⟩
  | cons e es ih =>
    intro s t s1 hrel h
    simp only [run] at h
    cases h1 : step s e with
    | none => simp [h1] at h
    | some s2 =>
      simp only [h1, Option.some_bind] at h
      obtain ⟨t2, ht2, hrel2⟩ := sameButSendOutcome_step hrel h1
      obtain ⟨t1, ht1, hrel1⟩ := ih s2 t2 s1 hrel2 h
      exact ⟨t1, by simp [run, ht2, ht1], hrel1⟩

theorem step_select_default (s : State) (hs : s.status = none) (hc : s.capture = CapPc.select)
    (hP : StopChanInv s) (hp : s.coord ≠ CoordPc.parked) :
    step s (Event.kSelect false) = some { s with capture := CapPc.dot } := by
  have h := hP.recv_eq
  rw [if_neg hp] at h
  simp [step, next, hs, hc, h]

theorem step_dot (s : State) (hs : s.status = none) (hc : s.capture = CapPc.dot) :
    step s Event.kDot = some { s with out := s.out ++ [Out.dot], capture := CapPc.read } := by
  simp [step, next, hs, hc]

theorem stopChanInv_reachable (evs : List Event) (s : State)
    (h : run State.init evs = some s) : StopChanInv s :=
  run_invariant StopChanInv stopChanInv_step evs State.init s stopChanInv_init h

theorem run_snoc (s : State) (evs : List Event) (e : Event) :
    run s (evs ++ [e]) = (run s evs).bind (fun t => step t e) := by
  rw [run_append]
  cases run s evs with
  | none => rfl
  | some t => simp [run]

/-- C4: in every pass of the capture loop of every run in which `stream.Send`
fails, the failure is logged and nothing else: the process keeps running, the
loop goes on to its check of the stop channel, and the state is that after a
successful send but for the log line and the recorded error.  Every schedule
that can follow the successful send can follow the failed one, with the same
steps and the same states up to those two records; and when no stop signal
waits on the channel, the next pass reads the device and calls `stream.Send`
with the new frame. -/
theorem capture_survives_send_failure (evs : List Event) (s : State) (e : Err)
    (hrun : run State.init evs = some s) (hs : s.status = none)
    (hc : s.capture = CapPc.send) :
    ∃ t u, step s (Event.kSend (some e)) = some t ∧ step s (Event.kSend none) = some u ∧
      t.log = s.log ++ [Log.couldNotSendAudio e] ∧ t.status = none ∧
      t.capture = CapPc.select ∧ SameButSendOutcome t u ∧
      (∀ es u1, run u es = some u1 → ∃ t1, run t es = some t1 ∧ SameButSendOutcome t1 u1) ∧
      (s.coord ≠ CoordPc.parked → ∀ frame err, frame.length = 8196 →
        frame.all isInt16 = true →
        ∃ t1, run t [Event.kSelect false, Event.kDot, Event.kRead (Except.ok frame),
                     Event.kWrite, Event.kSend err] = some t1 ∧
          t1.sent = t.sent ++
            [{ req := StreamingRecognizeRequest.AudioContent (encodeInt16s frame), err := err }] ∧
          t1.dev = t.dev ++ [DevCall.read]) := by
  obtain ⟨t, ht, ht1, ht2, ht3, ht4, ht5, ht6, ht7, ht8, ht9, ht10, ht11, ht12⟩ :=
    step_send s (some e) hs hc
  obtain ⟨u, hu, hu1, hu2, hu3, hu4, hu5, hu6, hu7, hu8, hu9, hu10, hu11, hu12⟩ :=
    step_send s none hs hc
  have hrel : SameButSendOutcome t u := by
    refine ⟨?_, ?_, ?_, ?_, ?_, ?_, ?_, ?_, ?_, ?_, ?_⟩ <;> simp [*]
  refine ⟨t, u, ht, hu, by simpa using ht4, ht3, ht2, hrel, ?_, ?_⟩
  · intro es u1 h
    obtain ⟨t1, h1, h2⟩ := sameButSendOutcome_run es u t u1 hrel.symm h
    exact ⟨t1, h1, h2.symm⟩
  · intro hp frame err hlen hrange
    have hPt : StopChanInv t :=
      stopChanInv_reachable (evs ++ [Event.kSend (some e)]) t (by rw [run_snoc, hrun]; exact ht)
    have hBt : BufInv t :=
      bufInv_reachable (evs ++ [Event.kSend (some e)]) t (by rw [run_snoc, hrun]; exact ht)
    have h1 := step_select_default t ht3 ht2 hPt (by rw [ht6]; exact hp)
    have h2 := step_dot { t with capture := CapPc.dot } ht3 rfl
    have hb : t.bufIn.length = bufInLen := hBt (by rw [ht2]; decide) (by rw [ht2]; decide)
    obtain ⟨t1, h3, h4, _, _, _, _, _, _, _, _, h5⟩ := run_read_write_send
      { t with out := t.out ++ [Out.dot], capture := CapPc.read } frame err ht3 rfl
      (by show frame.length = t.bufIn.length; rw [hb, hlen]; rfl) hrange
    refine ⟨t1, ?_, h4, h5⟩
    rw [run_cons_of_step h1, run_cons_of_step h2]
    exact h3

/-- C4, an instance: the first `stream.Send` of the capture loop fails. -/
theorem capture_survives_send_failure_witness :
    run State.init (firstRead ++ [Event.kWrite]) = some atSend ∧ atSend.status = none ∧
    atSend.capture = CapPc.send ∧
    ∃ t u, step atSend (Event.kSend (some (Err.other 14))) = some t ∧
      step atSend (Event.kSend none) = some u ∧
      t.log = atSend.log ++ [Log.couldNotSendAudio (Err.other 14)] ∧ t.status = none ∧
      t.capture = CapPc.select ∧ SameButSendOutcome t u ∧
      (∀ es u1, run u es = some u1 → ∃ t1, run t es = some t1 ∧ SameButSendOutcome t1 u1) ∧
      (atSend.coord ≠ CoordPc.parked → ∀ frame err, frame.length = 8196 →
        frame.all isInt16 = true →
        ∃ t1, run t [Event.kSelect false, Event.kDot, Event.kRead (Except.ok frame),
                     Event.kWrite, Event.kSend err] = some t1 ∧
          t1.sent = t.sent ++
            [{ req := StreamingRecognizeRequest.AudioContent (encodeInt16s frame), err := err }] ∧
          t1.dev = t.dev ++ [DevCall.read]) :=
  ⟨run_atSend, rfl, rfl,
    capture_survives_send_failure (firstRead ++ [Event.kWrite]) atSend (Err.other 14)
      run_atSend rfl rfl⟩

/-! ## The stop signal -/

theorem stopBudget_step (s : State) (e : Event) (t : State)
    (hP : StopChanInv s) (h : step s e = some t) :
    (if e.isStopSend = true then 1 else 0) + stopBudget t ≤ stopBudget s := by
  have hs := step_sound h
  clear h
  cases hs
  case mGoCoord hr hm =>
    have := hP.coord_eq hm
    simp [stopBudget, Event.isStopSend, this]
  case kSelectStop v c released hr hc hd =>
    cases released <;> simp [stopBudget, Event.isStopSend]
  all_goals simp_all [stopBudget, Event.isStopSend, State.fatal, State.panic]

theorem stopBudget_run (evs : List Event) :
    ∀ s t : State, StopChanInv s → run s evs = some t →
      evs.countP Event.isStopSend + stopBudget t ≤ stopBudget s := by
  induction evs with
  | nil =>
    intro s t _ h
    simp only [run, Option.some.injEq] at h
    subst h
    simp
  | cons e es ih =>
    intro s t hP h
    simp only [run] at h
    cases h1 : step s e with
    | none => simp [h1] at h
    | some u =>
      simp only [h1, Option.some_bind] at h
      have h2 := stopBudget_step s e u hP h1
      have h3 := ih u t (stopChanInv_step s e u hP h1) h
      rw [List.countP_cons]
      omega

theorem offered_step (s : State) (e : Event) (t : State)
    (hP : Offered s) (h : step s e = some t) :
    Offered t ∧
    (if e.isRead = true then 1 else 0) + readsLeft t ≤ readsLeft s ∧
    (if e.isAudioSend = true then 1 else 0) + sendsLeft t ≤ sendsLeft s ∧
    (∀ b, e = Event.kSelect b → b = true) := by
  obtain ⟨hI, hO⟩ := hP
  have hI1 := stopChanInv_step s e t hI h
  have hrecv := hI.recv_eq
  have hcoord := hI.coord_eq
  have hcap := hI.capture_eq
  have hs := step_sound h
  clear h hI
  cases hs
  case kSelectStop v c released hr hc hd =>
    rw [hrecv] at hd
    by_cases hp : s.coord = CoordPc.parked
    · simp only [hp, if_true, Option.some.injEq, Prod.mk.injEq] at hd
      obtain ⟨rfl, rfl, rfl⟩ := hd
      refine ⟨⟨hI1, Or.inr rfl⟩, ?_, ?_, ?_⟩ <;>
        simp [readsLeft, sendsLeft, Event.isRead, Event.isAudioSend]
    · simp [hp] at hd
  case kSelectDefault hr hc hd =>
    rw [hrecv] at hd
    rcases hO with hp | ho
    · simp [hp] at hd
    · simp [hc, CapPc.observed] at ho
  all_goals
    clear hrecv
    refine ⟨⟨hI1, ?_⟩, ?_, ?_, ?_⟩ <;>
      rcases hO with hp | ho <;>
        simp_all [readsLeft, sendsLeft, Event.isRead, Event.isAudioSend, CapPc.observed,
          State.fatal, State.panic]
  all_goals
    cases hcp : s.capture <;> simp_all [CapPc.observed]

theorem offered_run (evs : List Event) :
    ∀ s t : State, Offered s → run s evs = some t →
      evs.countP Event.isRead + readsLeft t ≤ readsLeft s ∧
      evs.countP Event.isAudioSend + sendsLeft t ≤ sendsLeft s ∧
      (∀ b, Event.kSelect b ∈ evs → b = true) := by
  induction evs with
  | nil =>
    intro s t _ h
    simp only [run, Option.some.injEq] at h
    subst h
    simp
  | cons e es ih =>
    intro s t hP h
    simp only [run] at h
    cases h1 : step s e with
    | none => simp [h1] at h
    | some u =>
      simp only [h1, Option.some_bind] at h
      obtain ⟨hO, hr, ha, hb⟩ := offered_step s e u hP h1
      obtain ⟨ihr, iha, ihb⟩ := ih u t hO h
      refine ⟨?_, ?_, ?_⟩
      · rw [List.countP_cons]; omega
      · rw [List.countP_cons]; omega
      · intro b hmem
        rcases List.mem_cons.1 hmem with hhd | htl
        · exact hb b hhd.symm
        · exact ihb b htl

theorem readsLeft_le_one (s : State) : readsLeft s ≤ 1 := by
  unfold readsLeft
  split
  · omega
  · split
    · split <;> omega
    · omega

theorem sendsLeft_le_one (s : State) : sendsLeft s ≤ 1 := by
  unfold sendsLeft
  split
  · omega
  · split
    · split <;> omega
    · omega

/-- A run through an event: the state before it and the state after it. -/
theorem run_split {s0 s : State} {pre post : List Event} {e : Event}
    (h : run s0 (pre ++ e :: post) = some s) :
    ∃ s1 s2, run s0 pre = some s1 ∧ step s1 e = some s2 ∧ run s2 post = some s := by
  rw [run_append] at h
  cases h1 : run s0 pre with
  | none => simp [h1] at h
  | some s1 =>
    simp only [h1, Option.some_bind, run] at h
    cases h2 : step s1 e with
    | none => simp [h2] at h
    | some s2 =>
      simp only [h2, Option.some_bind] at h
      exact ⟨s1, s2, rfl, h2, h⟩

/-- A run that enters a set of states does so by a step that crosses into it. -/
theorem reach_split (S : State → Prop) (P : Event → Prop)
    (hstep : ∀ s e t, step s e = some t → ¬ S s → S t → P e) :
    ∀ (evs : List Event) (s0 s : State), run s0 evs = some s → ¬ S s0 → S s →
      ∃ a e b s1 s2, evs = a ++ e :: b ∧ P e ∧ run s0 a = some s1 ∧ step s1 e = some s2 := by
  intro evs
  induction evs with
  | nil =>
    intro s0 s h h0 hS
    simp only [run, Option.some.injEq] at h
    exact absurd (h ▸ hS) h0
  | cons e es ih =>
    intro s0 s h h0 hS
    simp only [run] at h
    cases h1 : step s0 e with
    | none => simp [h1] at h
    | some u =>
      simp only [h1, Option.some_bind] at h
      by_cases hu : S u
      · exact ⟨[], e, es, s0, u, rfl, hstep s0 e u h1 h0 hu, rfl, h1⟩
      · obtain ⟨a, e', b, s1, s2, hev, hp, hr, hst⟩ := ih u s h hu hS
        refine ⟨e :: a, e', b, s1, s2, by rw [hev]; rfl, hp, ?_, hst⟩
        simp [run, h1, hr]

theorem enter_stopped (s : State) (e : Event) (t : State) (h : step s e = some t)
    (h0 : ¬ s.capture.stopped = true) (h1 : t.capture.stopped = true) :
    ∃ err, e = Event.kStop err := by
  have hs := step_sound h
  clear h
  cases hs <;> simp_all [CapPc.stopped, State.fatal, State.panic]

theorem enter_observed (s : State) (e : Event) (t : State) (h : step s e = some t)
    (h0 : ¬ s.capture.observed = true) (h1 : t.capture.observed = true) :
    e = Event.kSelect true := by
  have hs := step_sound h
  clear h
  cases hs <;> simp_all [CapPc.observed, State.fatal, State.panic]

theorem step_return_pc {s t : State} (h : step s Event.kReturn = some t) :
    s.capture = CapPc.ret := by
  have hr := step_running h
  simp only [step, next, hr, Option.isSome_none, Bool.false_eq_true, if_false] at h
  by_contra hc
  simp [hc] at h

theorem step_stop_pc {s t : State} {err : Option Err} (h : step s (Event.kStop err) = some t) :
    s.capture = CapPc.stop := by
  have hr := step_running h
  simp only [step, next, hr, Option.isSome_none, Bool.false_eq_true, if_false] at h
  by_contra hc
  simp [hc] at h

theorem step_stopSend_parks {s t : State} (hP : StopChanInv s)
    (h : step s Event.sSend = some t) : t.coord = CoordPc.parked := by
  have hsend := Chan.send_unbuffered s.micStopCh true hP.cap_eq
  have hs := step_sound h
  cases hs
  case sSendDone c hr hc hd => rw [hsend] at hd; simp at hd
  case sSendPark c hr hc hd => rfl

theorem step_select_true_pc {s t : State} (h : step s (Event.kSelect true) = some t) :
    t.capture = CapPc.turningOff := by
  have hs := step_sound h
  cases hs
  rfl

theorem readsLeft_observed (s : State) (h : s.capture.observed = true) : readsLeft s = 0 := by
  unfold readsLeft
  cases hc : s.capture <;> simp_all [CapPc.observed]

theorem sendsLeft_observed (s : State) (h : s.capture.observed = true) : sendsLeft s = 0 := by
  unfold sendsLeft
  cases hc : s.capture <;> simp_all [CapPc.observed]

theorem stopSend_count (evs : List Event) (s : State) (hrun : run State.init evs = some s) :
    evs.countP Event.isStopSend ≤ 1 := by
  have h := stopBudget_run evs State.init s stopChanInv_init hrun
  have h1 : stopBudget State.init = 1 := rfl
  omega

/-- The order of the steps around the stop signal, in every run: the signal
goroutine begins at most one send on the stop channel; once it has, every
check of the channel the capture loop makes takes the stop branch, and in the
whole rest of the run the capture loop makes at most one device read and at
most one `stream.Send`; after the check that took the stop branch it makes no
device read and no `stream.Send`; and a return of the capture goroutine is
preceded by its call of `micstream.Stop()`, itself preceded by that check.
Whether a run gets to those steps is another matter. -/
theorem stop_signal_order (evs : List Event) (s : State)
    (hrun : run State.init evs = some s) :
    evs.countP Event.isStopSend ≤ 1 ∧
    (∀ pre post, evs = pre ++ Event.sSend :: post →
      (∀ b, Event.kSelect b ∈ post → b = true) ∧
      post.countP Event.isRead ≤ 1 ∧ post.countP Event.isAudioSend ≤ 1) ∧
    (∀ pre post, evs = pre ++ Event.kSelect true :: post →
      post.countP Event.isRead = 0 ∧ post.countP Event.isAudioSend = 0) ∧
    (∀ pre post, evs = pre ++ Event.kReturn :: post →
      ∃ a err b, pre = a ++ Event.kStop err :: b ∧ Event.kSelect true ∈ a) := by
  refine ⟨stopSend_count evs s hrun, ?_, ?_, ?_⟩
  · intro pre post hev
    subst hev
    obtain ⟨s1, s2, h1, h2, h3⟩ := run_split hrun
    have hI1 := stopChanInv_reachable pre s1 h1
    have hI2 := stopChanInv_step s1 _ s2 hI1 h2
    have hp := step_stopSend_parks hI1 h2
    obtain ⟨hr, ha, hb⟩ := offered_run post s2 s ⟨hI2, Or.inl hp⟩ h3
    have := readsLeft_le_one s2
    have := sendsLeft_le_one s2
    exact ⟨hb, by omega, by omega⟩
  · intro pre post hev
    subst hev
    obtain ⟨s1, s2, h1, h2, h3⟩ := run_split hrun
    have hI1 := stopChanInv_reachable pre s1 h1
    have hI2 := stopChanInv_step s1 _ s2 hI1 h2
    have hc := step_select_true_pc h2
    have ho : s2.capture.observed = true := by rw [hc]; rfl
    obtain ⟨hr, ha, _⟩ := offered_run post s2 s ⟨hI2, Or.inr ho⟩ h3
    rw [readsLeft_observed s2 ho] at hr
    rw [sendsLeft_observed s2 ho] at ha
    exact ⟨by omega, by omega⟩
  · intro pre post hev
    subst hev
    obtain ⟨s1, s2, h1, h2, _⟩ := run_split hrun
    have hc := step_return_pc h2
    obtain ⟨a, e, b, u1, u2, hpre, ⟨err, he⟩, hu1, hu2⟩ :=
      reach_split (fun s => s.capture.stopped = true) (fun e => ∃ err, e = Event.kStop err)
        enter_stopped pre State.init s1 h1 (by decide) (by show s1.capture.stopped = true; rw [hc]; rfl)
    subst he
    have hc1 := step_stop_pc hu2
    obtain ⟨a1, e1, b1, _, _, ha, he1, _, _⟩ :=
      reach_split (fun s => s.capture.observed = true) (fun e => e = Event.kSelect true)
        enter_observed a State.init u1 hu1 (by decide) (by show u1.capture.observed = true; rw [hc1]; rfl)
    refine ⟨a, err, b, hpre, ?_⟩
    rw [ha, he1]
    simp

/-- The order of the steps in the run in which the signal is handled to the
end. -/
theorem stop_signal_order_handled :
    run State.init handledSignal = some afterHandledSignal ∧
    (handledSignal.countP Event.isStopSend ≤ 1 ∧
    (∀ pre post, handledSignal = pre ++ Event.sSend :: post →
      (∀ b, Event.kSelect b ∈ post → b = true) ∧
      post.countP Event.isRead ≤ 1 ∧ post.countP Event.isAudioSend ≤ 1) ∧
    (∀ pre post, handledSignal = pre ++ Event.kSelect true :: post →
      post.countP Event.isRead = 0 ∧ post.countP Event.isAudioSend = 0) ∧
    (∀ pre post, handledSignal = pre ++ Event.kReturn :: post →
      ∃ a err b, pre = a ++ Event.kStop err :: b ∧ Event.kSelect true ∈ a)) :=
  ⟨run_handledSignal, stop_signal_order handledSignal afterHandledSignal run_handledSignal⟩

theorem parked_step {s t : State} {e : Event} (hP : StopChanInv s)
    (hp : s.coord = CoordPc.parked) (h : step s e = some t) :
    t.coord = CoordPc.parked ∨
      (e = Event.kSelect true ∧ t.coord = CoordPc.exit ∧ t.micStopCh.sendq = []) := by
  have hrecv := hP.recv_eq
  have hcoord := hP.coord_eq
  have hs := step_sound h
  clear h
  cases hs
  case kSelectStop v c released hr hc hd =>
    rw [hrecv, if_pos hp] at hd
    simp only [Option.some.injEq, Prod.mk.injEq] at hd
    obtain ⟨rfl, rfl, rfl⟩ := hd
    right
    exact ⟨rfl, rfl, rfl⟩
  all_goals
    clear hrecv
    simp_all [State.fatal, State.panic]

theorem parked_no_exit {s : State} (hp : s.coord = CoordPc.parked) :
    step s Event.sExit = none := by
  unfold step next
  split
  · rfl
  · simp [hp]

theorem enter_released (s : State) (e : Event) (t : State) (h : step s e = some t)
    (h0 : ¬ Released s) (h1 : Released t) : e = Event.kSelect true := by
  have hP : StopChanInv s := by
    by_contra hn
    exact h0 (Or.inl hn)
  have hc : s.coord ≠ CoordPc.exit := fun hc => h0 (Or.inr hc)
  have hPt := stopChanInv_step s e t hP h
  have ht : t.coord = CoordPc.exit := by
    rcases h1 with h1 | h1
    · exact absurd hPt h1
    · exact h1
  have hsend := Chan.send_unbuffered s.micStopCh true hP.cap_eq
  have hs := step_sound h
  clear h h0 h1 hPt
  cases hs
  case sSendDone c hr hc1 hd => rw [hsend] at hd; simp at hd
  case kSelectStop v c released hr hc1 hd => rfl
  all_goals
    clear hsend
    simp_all [State.fatal, State.panic]

theorem step_exit_pc {s t : State} (h : step s Event.sExit = some t) :
    s.coord = CoordPc.exit := by
  have hr := step_running h
  simp only [step, next, hr, Option.isSome_none, Bool.false_eq_true, if_false] at h
  by_contra hc
  simp [hc] at h

/-- C10 (as amended): in every run the stop channel has capacity 0 and never
holds a buffered value; a send on it leaves the signal goroutine parked in the
send with its value waiting; while it is parked the goroutine cannot reach its
`os.Exit(0)` and every step of the program leaves it parked, but for the
receive of the capture loop (the check of line 112 taking the stop branch),
which takes the value and releases it; so in a run the `os.Exit(0)` of line 36
comes after that receive; and at most one send on the channel is ever
begun. -/
theorem stop_channel_unbuffered (evs : List Event) (s : State)
    (hrun : run State.init evs = some s) :
    s.micStopCh.cap = 0 ∧ s.micStopCh.buf = [] ∧ s.micStopCh.sendq.length ≤ 1 ∧
    evs.countP Event.isStopSend ≤ 1 ∧
    (∀ pre post, evs = pre ++ Event.sSend :: post →
      ∃ s1, run State.init (pre ++ [Event.sSend]) = some s1 ∧ s1.coord = CoordPc.parked ∧
        s1.micStopCh.sendq = [true]) ∧
    (s.coord = CoordPc.parked →
      step s Event.sExit = none ∧
      ∀ e t, step s e = some t →
        t.coord = CoordPc.parked ∨
          (e = Event.kSelect true ∧ t.coord = CoordPc.exit ∧ t.micStopCh.sendq = [])) ∧
    (∀ pre mid rest, evs = pre ++ Event.sSend :: (mid ++ Event.sExit :: rest) →
      Event.kSelect true ∈ mid) := by
  have hI := stopChanInv_reachable evs s hrun
  refine ⟨hI.cap_eq, hI.buf_eq, ?_, stopSend_count evs s hrun, ?_, ?_, ?_⟩
  · rw [hI.sendq_eq]
    split <;> simp
  · intro pre post hev
    subst hev
    obtain ⟨s1, s2, h1, h2, _⟩ := run_split hrun
    have hI1 := stopChanInv_reachable pre s1 h1
    have hI2 := stopChanInv_step s1 _ s2 hI1 h2
    have hp := step_stopSend_parks hI1 h2
    refine ⟨s2, ?_, hp, ?_⟩
    · rw [run_snoc, h1]; exact h2
    · rw [hI2.sendq_eq, if_pos hp]
  · intro hp
    exact ⟨parked_no_exit hp, fun e t h => parked_step hI hp h⟩
  · intro pre mid rest hev
    subst hev
    obtain ⟨s1, s2, h1, h2, h3⟩ := run_split hrun
    have hI1 := stopChanInv_reachable pre s1 h1
    have hI2 := stopChanInv_step s1 _ s2 hI1 h2
    have hp := step_stopSend_parks hI1 h2
    obtain ⟨u1, u2, h4, h5, _⟩ := run_split h3
    have hu := step_exit_pc h5
    obtain ⟨a, e, b, _, _, hmid, he, _, _⟩ :=
      reach_split Released (fun e => e = Event.kSelect true) enter_released mid s2 u1 h4
        (by
          intro hr
          rcases hr with hr | hr
          · exact hr hI2
          · rw [hp] at hr; exact absurd hr (by decide))
        (Or.inr hu)
    rw [hmid, he]
    simp

theorem run_earlySignal : run State.init earlySignal = some atEarlySignal := by
  rfl

/-- C10, two instances: a run in which the signal is handled to the end, and a
run that leaves the signal goroutine parked in its send. -/
theorem stop_channel_unbuffered_witness :
    (run State.init handledSignal = some afterHandledSignal ∧
    (afterHandledSignal.micStopCh.cap = 0 ∧ afterHandledSignal.micStopCh.buf = [] ∧
    afterHandledSignal.micStopCh.sendq.length ≤ 1 ∧
    handledSignal.countP Event.isStopSend ≤ 1 ∧
    (∀ pre post, handledSignal = pre ++ Event.sSend :: post →
      ∃ s1, run State.init (pre ++ [Event.sSend]) = some s1 ∧ s1.coord = CoordPc.parked ∧
        s1.micStopCh.sendq = [true]) ∧
    (afterHandledSignal.coord = CoordPc.parked →
      step afterHandledSignal Event.sExit = none ∧
      ∀ e t, step afterHandledSignal e = some t →
        t.coord = CoordPc.parked ∨
          (e = Event.kSelect true ∧ t.coord = CoordPc.exit ∧ t.micStopCh.sendq = [])) ∧
    (∀ pre mid rest, handledSignal = pre ++ Event.sSend :: (mid ++ Event.sExit :: rest) →
      Event.kSelect true ∈ mid))) ∧
    (run State.init earlySignal = some atEarlySignal ∧
    (atEarlySignal.micStopCh.cap = 0 ∧ atEarlySignal.micStopCh.buf = [] ∧
    atEarlySignal.micStopCh.sendq.length ≤ 1 ∧
    earlySignal.countP Event.isStopSend ≤ 1 ∧
    (∀ pre post, earlySignal = pre ++ Event.sSend :: post →
      ∃ s1, run State.init (pre ++ [Event.sSend]) = some s1 ∧ s1.coord = CoordPc.parked ∧
        s1.micStopCh.sendq = [true]) ∧
    (atEarlySignal.coord = CoordPc.parked →
      step atEarlySignal Event.sExit = none ∧
      ∀ e t, step atEarlySignal e = some t →
        t.coord = CoordPc.parked ∨
          (e = Event.kSelect true ∧ t.coord = CoordPc.exit ∧ t.micStopCh.sendq = [])) ∧
    (∀ pre mid rest, earlySignal = pre ++ Event.sSend :: (mid ++ Event.sExit :: rest) →
      Event.kSelect true ∈ mid))) :=
  ⟨⟨run_handledSignal,
      stop_channel_unbuffered handledSignal afterHandledSignal run_handledSignal⟩,
    ⟨run_earlySignal, stop_channel_unbuffered earlySignal atEarlySignal run_earlySignal⟩⟩

/-- C10 as stated fails: the stop channel is made with capacity 0 (line 29),
unlike the signal channel made with capacity 1 (line 28).  When the signal
goroutine sends on it, nothing is buffered: the goroutine is parked in the
send with its value waiting. -/
theorem stop_channel_capacity_counterexample :
    State.init.micStopCh.cap = 0 ∧ State.init.sig.cap = 1 ∧
    (run State.init earlySignal).map
      (fun t => (t.micStopCh.cap, t.micStopCh.buf, t.micStopCh.sendq, t.coord))
      = some (0, [], [true], CoordPc.parked) := by
  refine ⟨rfl, rfl, rfl⟩

/-! ## The shutdown on a signal -/

theorem stopCalledInv_step (s : State) (e : Event) (t : State)
    (hP : StopCalledInv s) (h : step s e = some t) : StopCalledInv t := by
  have hs := step_sound h
  clear h
  unfold StopCalledInv at hP ⊢
  cases hs <;> simp_all [State.fatal, State.panic, CapPc.stopped]

/-- In every run, a capture goroutine that stands after line 114 has called
`micstream.Stop()`. -/
theorem stopCalled_reachable (evs : List Event) (s : State)
    (h : run State.init evs = some s) : StopCalledInv s :=
  run_invariant StopCalledInv stopCalledInv_step evs State.init s
    (by simp [StopCalledInv, State.init, CapPc.stopped]) h

theorem run_exitAfterHandOff : run State.init exitAfterHandOff = some atExitAfterHandOff := by
  rw [exitAfterHandOff, run_append, run_firstRead]
  rfl

theorem run_killedInRecv : run State.init killedInRecv = some atKilledInRecv := by
  rfl

/-- C5 (the program falls short of it): two runs with exactly one termination
signal.  In the first the signal is `os.Interrupt` and arrives during the
first pass of the capture loop: the signal goroutine sends the stop signal
once, the capture loop receives it at the check of that pass, and the
`os.Exit(0)` of line 36, the next statement of the released signal goroutine,
ends the process with status 0 before the capture goroutine calls
`micstream.Stop()`: the device is neither stopped nor closed and no step
follows.  In the second the signal is `os.Kill`, registered on line 30 but
never relayed: the process ends at once, no stop signal is sent, nothing is
printed, the device is not stopped. -/
theorem stop_signal_shutdown_falls_short :
    (exitAfterHandOff.countP Event.isSignal = 1 ∧
     exitAfterHandOff.countP Event.isStopSend = 1 ∧
     Event.kSelect true ∈ exitAfterHandOff ∧
     run State.init exitAfterHandOff = some atExitAfterHandOff ∧
     atExitAfterHandOff.status = some 0 ∧
     atExitAfterHandOff.capture = CapPc.turningOff ∧
     DevCall.stop ∉ atExitAfterHandOff.dev ∧ DevCall.close ∉ atExitAfterHandOff.dev ∧
     Out.turningOffMic ∉ atExitAfterHandOff.out ∧
     (∀ e, step atExitAfterHandOff e = none)) ∧
    (killedInRecv.countP Event.isSignal = 1 ∧
     killedInRecv.countP Event.isStopSend = 0 ∧
     run State.init killedInRecv = some atKilledInRecv ∧
     atKilledInRecv.status = some 137 ∧
     atKilledInRecv.out = [] ∧ atKilledInRecv.dev = [] ∧
     (∀ e, step atKilledInRecv e = none)) := by
  refine ⟨⟨rfl, rfl, ?_, run_exitAfterHandOff, rfl, rfl, ?_, ?_, ?_, ?_⟩,
    ⟨rfl, rfl, run_killedInRecv, rfl, rfl, rfl, ?_⟩⟩
  · simp [exitAfterHandOff]
  · simp [atExitAfterHandOff, atWrite]
  · simp [atExitAfterHandOff, atWrite]
  · simp [atExitAfterHandOff]
  · exact fun e => step_ended _ 0 rfl e
  · exact fun e => step_ended _ killedStatus rfl e

end LiveCaption
